import Mathlib

/-!
Verification of the scoring-engine subsystem of the benchmark platform
(`scoring/engines/base.py`, `classification.py`, `detection.py`,
`segmentation.py`, `custom.py`).

Modelling conventions (shallow embedding):
* Python floats are modelled as exact rationals (`ℚ`).  The spec itself
  (§9) asks implementers to use exact rational thresholds, so numeric
  claims are settled in exact-rational semantics.
* pandas `DataFrame`s are modelled per engine: for classification a raw
  table of string cells with a header row; for detection a list of typed
  rows (the columns the engine reads after auto-detection).
* Exceptions are modelled with `Except`: a function that can raise
  returns `Except String α` (the `String` is the exception message).
  `score()`'s "never raise" behaviour is then a theorem about which
  branches produce `.error`.
* Mutable engine state (`ground_truth_df`, `logs`) is threaded
  explicitly; the aliasing of `self.logs` into `result.logs` (subclasses
  return `ScoringResult(..., logs=self.logs)`) is modelled by a
  `LogsSpec` tag so that `score()`'s `result.logs = self.logs +
  (result.logs or [])` line reproduces the run-time list values exactly.

Rational arithmetic: the library's `Rat.add/sub/mul/div` are
`@[irreducible]`, which blocks kernel evaluation (`decide`) on concrete
inputs.  We therefore compute with `qadd/qsub/qmul/qdiv` below, defined
through `Rat.divInt` (kernel-reducible) and proven equal to the field
operations, so every definition in this file is executable by the
kernel while algebraic lemmas of `ℚ` remain available.
-/

/-- Kernel-reducible rational addition, equal to `a + b` (see `qadd_eq`). -/
def qadd (a b : ℚ) : ℚ := Rat.divInt (a.num * b.den + b.num * a.den) (a.den * b.den)

/-- Kernel-reducible rational subtraction, equal to `a - b`. -/
def qsub (a b : ℚ) : ℚ := Rat.divInt (a.num * b.den - b.num * a.den) (a.den * b.den)

/-- Kernel-reducible rational multiplication, equal to `a * b`. -/
def qmul (a b : ℚ) : ℚ := Rat.divInt (a.num * b.num) (a.den * b.den)

/-- Kernel-reducible rational division, equal to `a / b` (both give `0` for `b = 0`). -/
def qdiv (a b : ℚ) : ℚ := Rat.divInt (a.num * b.den) (a.den * b.num)

theorem qadd_eq (a b : ℚ) : qadd a b = a + b := by
  have ha : ((a.den : ℚ)) ≠ 0 := Nat.cast_ne_zero.mpr a.den_nz
  have hb : ((b.den : ℚ)) ≠ 0 := Nat.cast_ne_zero.mpr b.den_nz
  rw [qadd, Rat.divInt_eq_div]
  push_cast
  conv_rhs => rw [← Rat.num_div_den a, ← Rat.num_div_den b]
  rw [div_add_div _ _ ha hb]
  ring_nf

theorem qsub_eq (a b : ℚ) : qsub a b = a - b := by
  have ha : ((a.den : ℚ)) ≠ 0 := Nat.cast_ne_zero.mpr a.den_nz
  have hb : ((b.den : ℚ)) ≠ 0 := Nat.cast_ne_zero.mpr b.den_nz
  rw [qsub, Rat.divInt_eq_div]
  push_cast
  conv_rhs => rw [← Rat.num_div_den a, ← Rat.num_div_den b]
  rw [div_sub_div _ _ ha hb]
  ring_nf

theorem qmul_eq (a b : ℚ) : qmul a b = a * b := by
  rw [qmul, Rat.divInt_eq_div]
  push_cast
  conv_rhs => rw [← Rat.num_div_den a, ← Rat.num_div_den b]
  rw [div_mul_div_comm]

theorem qdiv_eq (a b : ℚ) : qdiv a b = a / b := by
  rcases eq_or_ne b 0 with rfl | hb
  · simp [qdiv]
  · have ha : ((a.den : ℚ)) ≠ 0 := Nat.cast_ne_zero.mpr a.den_nz
    have hbd : ((b.den : ℚ)) ≠ 0 := Nat.cast_ne_zero.mpr b.den_nz
    have hbn : ((b.num : ℚ)) ≠ 0 := by
      exact_mod_cast Rat.num_ne_zero.mpr hb
    rw [qdiv, Rat.divInt_eq_div]
    push_cast
    conv_rhs => rw [← Rat.num_div_den a, ← Rat.num_div_den b]
    field_simp

/-- Sum of a list of rationals with the kernel-reducible addition. -/
def qsum (l : List ℚ) : ℚ := l.foldl qadd 0

theorem qsum_eq (l : List ℚ) : qsum l = l.sum := by
  have h : ∀ (a : ℚ), l.foldl qadd a = a + l.sum := by
    induction l with
    | nil => intro a; simp [List.foldl]
    | cons x xs ih => intro a; simp [List.foldl, qadd_eq, ih, List.sum_cons]; ring
  simpa using h 0

/-- Python's `round`-to-even on rationals: nearest integer, ties to the even one.
Models CPython rounding of a value already exact in `ℚ`. -/
def roundHalfEven (q : ℚ) : ℤ :=
  let f : ℤ := ⌊q⌋
  let r : ℚ := qsub q (f : ℚ)
  if r < Rat.divInt 1 2 then f
  else if Rat.divInt 1 2 < r then f + 1
  else if f % 2 = 0 then f else f + 1

/-- Python's `round(x, d)`: round to `d` decimal places, ties to even. -/
def roundq (d : ℕ) (x : ℚ) : ℚ :=
  Rat.divInt (roundHalfEven (qmul x ((10 : ℚ) ^ d))) ((10 : ℕ) ^ d)

/-! ### Decimal printing and parsing (models Python `str(int)` / `int(str)`)

`str(n)` for a natural number is its decimal digit string; `int(tok)` accepts an
optional sign followed by a nonempty digit string and raises `ValueError`
otherwise (modelled as `Option`).  Fuel makes the printer structurally
recursive, hence kernel-executable. -/

def digitChar (d : Nat) : Char :=
  ['0', '1', '2', '3', '4', '5', '6', '7', '8', '9'].getD d ('0')

/-- Decimal digits of `n` (most significant first), prepended to `acc`.
`fuel > n` suffices for full evaluation. -/
def decDigits : Nat → Nat → List Char → List Char
  | 0, _, acc => acc
  | fuel + 1, n, acc =>
    if n < 10 then digitChar n :: acc
    else decDigits fuel (n / 10) (digitChar (n % 10) :: acc)

/-- `str(n)` for a natural number `n`. -/
def strOfNat (n : Nat) : List Char := decDigits (n + 1) n []

/-- Accumulating decimal value of a digit string (helper for `int(...)`). -/
def valFrom (a : Nat) (cs : List Char) : Nat :=
  cs.foldl (fun x c => 10 * x + (c.toNat - 48)) a

/-- Digit-string value: `some` iff nonempty and all characters are digits. -/
def digitsVal? (cs : List Char) : Option Nat :=
  if cs ≠ [] ∧ cs.all Char.isDigit then some (valFrom 0 cs) else none

/-- Python `int(token)` on a whitespace-free token: optional sign, then digits.
(Underscore separators of CPython are not modelled; no claim uses them.) -/
def pyInt? (t : List Char) : Option Int :=
  match t with
  | [] => none
  | c :: rest =>
    if c = ('-') then (digitsVal? rest).map (fun m => -(m : Int))
    else if c = ('+') then (digitsVal? rest).map (fun m => (m : Int))
    else (digitsVal? t).map (fun m => (m : Int))

/-! ### Python string helpers: `split()`, `strip()`, `" ".join` -/

/-- Worker for `str.split()` (split on whitespace runs, dropping empties);
`cur` is the current token, reversed. -/
def tokenizeAux : List Char → List Char → List (List Char)
  | [], cur => if cur.isEmpty then [] else [cur.reverse]
  | c :: cs, cur =>
    if c.isWhitespace then
      (if cur.isEmpty then tokenizeAux cs [] else cur.reverse :: tokenizeAux cs [])
    else tokenizeAux cs (c :: cur)

/-- Python `s.split()` with no argument. -/
def pySplit (s : List Char) : List (List Char) := tokenizeAux s []

/-- Python `s.strip()`: drop whitespace from both ends. -/
def pyStrip (s : List Char) : List Char :=
  ((s.dropWhile Char.isWhitespace).reverse.dropWhile Char.isWhitespace).reverse

/-- Python `" ".join(tokens)`. -/
def joinSp : List (List Char) → List Char
  | [] => []
  | [t] => t
  | t :: ts => t ++ (' ') :: joinSp ts

/-- Number of non-whitespace characters (invariant under `strip`). -/
def nonWsCount (s : List Char) : Nat :=
  (s.filter (fun c => !c.isWhitespace)).length

/-! ### RLE codec (`segmentation.py`, `rle_decode` / `rle_encode`)

Masks are modelled as the row-major flattened `List Bool` of the numpy
`height × width` uint8 array (`reshape`/`flatten` are mutually inverse, so
flat lists carry the full content; the shape is the `height * width` length).
The `pd.isna` guard of `rle_decode` cannot fire for a genuine string input
and is absorbed by the blank-string test. -/

/-- State machine of `rle_encode`'s scan loop: `p` is the current 0-indexed
position, the optional `(start, length)` is the run in progress. -/
def rleRunsAux : List Bool → Nat → Option (Nat × Nat) → List (Nat × Nat)
  | [], _, none => []
  | [], _, some r => [r]
  | b :: rest, p, none =>
    if b then rleRunsAux rest (p + 1) (some (p, 1)) else rleRunsAux rest (p + 1) none
  | b :: rest, p, some (s, l) =>
    if b then rleRunsAux rest (p + 1) (some (s, l + 1))
    else (s, l) :: rleRunsAux rest (p + 1) none

/-- `rle_encode`: 1-indexed `start length` pairs of foreground runs, space
separated; the empty string when there is no run. -/
def rle_encode (mask : List Bool) : String :=
  let runs := rleRunsAux mask 0 none
  let toks := runs.flatMap (fun r => [strOfNat (r.1 + 1), strOfNat r.2])
  ⟨joinSp toks⟩

/-- All-background mask (`np.zeros(height * width)`, flattened). -/
def zerosMask (n : Nat) : List Bool := List.replicate n false

/-- `mask_flat[s : s + l] = 1`: in-bounds slice assignment (callers check bounds). -/
def writeRun (arr : List Bool) (s l : Nat) : List Bool :=
  arr.take s ++ List.replicate l true ++ arr.drop (s + l)

/-- The decode loop over parsed integer pairs: each pair `(start, length)` is
1-indexed; a pair is applied only if `start - 1 ≥ 0` and
`(start - 1) + length ≤ len(mask)`, otherwise skipped (numpy slice assignment
with a nonpositive extent writes nothing, hence `Int.toNat`). -/
def decodePairs : List Int → List Bool → List Bool
  | x :: y :: rest, arr =>
    let start := x - 1
    decodePairs rest
      (if 0 ≤ start ∧ start + y ≤ (arr.length : Int) then writeRun arr start.toNat y.toNat else arr)
  | _, arr => arr

/-- `list(map(int, tokens))` with `ValueError` modelled as `none`. -/
def mapInts : List (List Char) → Option (List Int)
  | [] => some []
  | t :: ts =>
    match pyInt? t, mapInts ts with
    | some v, some vs => some (v :: vs)
    | _, _ => none

/-- `rle_decode(rle_string, height, width)`, flattened result. -/
def rle_decode (s : String) (height width : Nat) : List Bool :=
  let sl := s.toList
  if (pyStrip sl).isEmpty ∨ pyStrip sl = [('0')] then zerosMask (height * width)
  else
    match mapInts (pySplit sl) with
    | none => zerosMask (height * width)
    | some pairs =>
      if pairs.length % 2 ≠ 0 then zerosMask (height * width)
      else decodePairs pairs (zerosMask (height * width))

/-! ### Correctness of the decimal printer and `int` parser -/

theorem digitChar_isDigit : ∀ d, d < 10 → (digitChar d).isDigit = true := by decide

theorem digitChar_toNat : ∀ d, d < 10 → (digitChar d).toNat - 48 = d := by decide

theorem isDigit_ne_minus (c : Char) (h : c.isDigit = true) : ¬ c = ('-') := by
  rintro rfl; exact absurd h (by decide)

theorem isDigit_ne_plus (c : Char) (h : c.isDigit = true) : ¬ c = ('+') := by
  rintro rfl; exact absurd h (by decide)

theorem isDigit_not_ws (c : Char) (h : c.isDigit = true) : c.isWhitespace = false := by
  by_contra hw
  rw [Bool.not_eq_false] at hw
  have hws : ((c = (' ') ∨ c = ('\t')) ∨ c = ('\r')) ∨ c = ('\n') := by
    simpa [Char.isWhitespace] using hw
  rcases hws with ((rfl | rfl) | rfl) | rfl <;> exact absurd h (by decide)

theorem decDigits_append :
    ∀ fuel n acc, n < fuel → decDigits fuel n acc = decDigits fuel n [] ++ acc := by
  intro fuel
  induction fuel with
  | zero => intro n acc h; omega
  | succ f ih =>
    intro n acc hn
    by_cases h10 : n < 10
    · simp [decDigits, h10]
    · have hdiv : n / 10 < f := by
        have h1 : n / 10 < n := Nat.div_lt_self (by omega) (by omega)
        omega
      simp only [decDigits, h10, if_false]
      rw [ih (n / 10) _ hdiv, ih (n / 10) (digitChar (n % 10) :: []) hdiv, List.append_assoc]
      rfl

theorem decDigits_fuel :
    ∀ n f g, n < f → n < g → decDigits f n [] = decDigits g n [] := by
  intro n
  induction n using Nat.strong_induction_on with
  | _ n ih =>
    intro f g hf hg
    match f, g with
    | f' + 1, g' + 1 =>
      by_cases h10 : n < 10
      · simp [decDigits, h10]
      · have h1 : n / 10 < n := Nat.div_lt_self (by omega) (by omega)
        simp only [decDigits, h10, if_false]
        rw [decDigits_append f' (n / 10) _ (by omega), decDigits_append g' (n / 10) _ (by omega),
          ih (n / 10) h1 f' g' (by omega) (by omega)]

theorem strOfNat_eq (n : Nat) :
    strOfNat n = if n < 10 then [digitChar n] else strOfNat (n / 10) ++ [digitChar (n % 10)] := by
  by_cases h10 : n < 10
  · simp [strOfNat, decDigits, h10]
  · have h1 : n / 10 < n := Nat.div_lt_self (by omega) (by omega)
    have step : decDigits (n + 1) n [] = decDigits n (n / 10) (digitChar (n % 10) :: []) := by
      conv_lhs => rw [decDigits]
      simp [h10]
    rw [if_neg h10, strOfNat, step, decDigits_append n (n / 10) _ (by omega),
      decDigits_fuel (n / 10) n (n / 10 + 1) (by omega) (by omega), strOfNat]

theorem strOfNat_ne_nil (n : Nat) : strOfNat n ≠ [] := by
  rw [strOfNat_eq]
  split <;> simp

theorem strOfNat_all_digit (n : Nat) : ∀ c ∈ strOfNat n, c.isDigit = true := by
  induction n using Nat.strong_induction_on with
  | _ n ih =>
    rw [strOfNat_eq]
    by_cases h10 : n < 10
    · simp only [h10, if_true, List.mem_singleton]
      rintro c rfl
      exact digitChar_isDigit n h10
    · have h1 : n / 10 < n := Nat.div_lt_self (by omega) (by omega)
      simp only [h10, if_false, List.mem_append, List.mem_singleton]
      rintro c (hc | rfl)
      · exact ih (n / 10) h1 c hc
      · exact digitChar_isDigit (n % 10) (Nat.mod_lt n (by omega))

theorem valFrom_append_single (a : Nat) (xs : List Char) (c : Char) :
    valFrom a (xs ++ [c]) = 10 * valFrom a xs + (c.toNat - 48) := by
  simp [valFrom, List.foldl_append]

theorem valFrom_strOfNat (n : Nat) : valFrom 0 (strOfNat n) = n := by
  induction n using Nat.strong_induction_on with
  | _ n ih =>
    rw [strOfNat_eq]
    by_cases h10 : n < 10
    · simp only [h10, if_true, valFrom, List.foldl]
      rw [Nat.mul_zero, Nat.zero_add, digitChar_toNat n h10]
    · have h1 : n / 10 < n := Nat.div_lt_self (by omega) (by omega)
      simp only [h10, if_false]
      rw [valFrom_append_single, ih (n / 10) h1, digitChar_toNat (n % 10) (Nat.mod_lt n (by omega))]
      omega

theorem digitsVal_strOfNat (n : Nat) : digitsVal? (strOfNat n) = some n := by
  rw [digitsVal?, if_pos, valFrom_strOfNat]
  exact ⟨strOfNat_ne_nil n, List.all_eq_true.mpr (strOfNat_all_digit n)⟩

theorem pyInt_strOfNat (n : Nat) : pyInt? (strOfNat n) = some (n : Int) := by
  obtain ⟨c, t, hct⟩ : ∃ c t, strOfNat n = c :: t := by
    cases h : strOfNat n with
    | nil => exact absurd h (strOfNat_ne_nil n)
    | cons c t => exact ⟨c, t, rfl⟩
  have hc : c.isDigit = true := strOfNat_all_digit n c (by rw [hct]; exact List.mem_cons_self c t)
  rw [hct, pyInt?]
  rw [if_neg (isDigit_ne_minus c hc), if_neg (isDigit_ne_plus c hc), ← hct,
    digitsVal_strOfNat]
  rfl

/-! ### Tokenizer and strip lemmas -/

theorem tokenizeAux_token (t : List Char) :
    ∀ rest cur, (∀ c ∈ t, c.isWhitespace = false) →
      tokenizeAux (t ++ rest) cur = tokenizeAux rest (t.reverse ++ cur) := by
  induction t with
  | nil => intro rest cur _; simp
  | cons c t' ih =>
    intro rest cur hw
    have hc : c.isWhitespace = false := hw c (List.mem_cons_self c t')
    simp only [List.cons_append, tokenizeAux, hc, if_false, Bool.false_eq_true]
    rw [List.append_eq, ih rest (c :: cur) (fun x hx => hw x (List.mem_cons_of_mem c hx))]
    simp

theorem pySplit_joinSp :
    ∀ ts : List (List Char), ts ≠ [] →
      (∀ t ∈ ts, t ≠ [] ∧ ∀ c ∈ t, c.isWhitespace = false) →
      pySplit (joinSp ts) = ts := by
  intro ts
  induction ts with
  | nil => intro h; exact absurd rfl h
  | cons t ts' ih =>
    intro _ hts
    obtain ⟨htne, htw⟩ := hts t (List.mem_cons_self t ts')
    obtain ⟨c0, t0, rfl⟩ : ∃ c0 t0, t = c0 :: t0 := by
      cases t with
      | nil => exact absurd rfl htne
      | cons c0 t0 => exact ⟨c0, t0, rfl⟩
    cases ts' with
    | nil =>
      show tokenizeAux (joinSp [c0 :: t0]) [] = [c0 :: t0]
      have hj : joinSp [c0 :: t0] = (c0 :: t0) ++ [] := by simp [joinSp]
      rw [hj, tokenizeAux_token (c0 :: t0) [] [] htw]
      simp [tokenizeAux]
    | cons t2 ts'' =>
      show tokenizeAux (joinSp ((c0 :: t0) :: t2 :: ts'')) [] = (c0 :: t0) :: t2 :: ts''
      have hj : joinSp ((c0 :: t0) :: t2 :: ts'') = (c0 :: t0) ++ (' ') :: joinSp (t2 :: ts'') := by
        simp [joinSp]
      rw [hj, tokenizeAux_token (c0 :: t0) _ [] htw]
      have hsp : (' ').isWhitespace = true := by decide
      have hcur : ((c0 :: t0).reverse ++ ([] : List Char)).isEmpty = false := by
        simp [List.isEmpty_iff]
      simp only [tokenizeAux, hsp, if_true, hcur, if_false, Bool.false_eq_true]
      rw [List.append_nil, List.reverse_reverse]
      have := ih (by simp) (fun u hu => hts u (List.mem_cons_of_mem _ hu))
      rw [pySplit] at this
      rw [this]

theorem nonWsCount_dropWhile (s : List Char) :
    nonWsCount (s.dropWhile Char.isWhitespace) = nonWsCount s := by
  conv_rhs => rw [← List.takeWhile_append_dropWhile (p := Char.isWhitespace) (l := s)]
  rw [nonWsCount, nonWsCount, List.filter_append]
  have : (s.takeWhile Char.isWhitespace).filter (fun c => !c.isWhitespace) = [] := by
    rw [List.filter_eq_nil_iff]
    intro c hc
    have := List.mem_takeWhile_imp hc
    simp [this]
  rw [this, List.nil_append]

theorem nonWsCount_reverse (s : List Char) : nonWsCount s.reverse = nonWsCount s := by
  rw [nonWsCount, nonWsCount, List.filter_reverse, List.length_reverse]

theorem nonWsCount_pyStrip (s : List Char) : nonWsCount (pyStrip s) = nonWsCount s := by
  rw [pyStrip, nonWsCount_reverse, nonWsCount_dropWhile, nonWsCount_reverse,
    nonWsCount_dropWhile]

theorem nonWsCount_joinSp :
    ∀ ts : List (List Char), (∀ t ∈ ts, ∀ c ∈ t, c.isWhitespace = false) →
      nonWsCount (joinSp ts) = (ts.map List.length).sum := by
  intro ts
  induction ts with
  | nil => intro _; simp [joinSp, nonWsCount]
  | cons t ts' ih =>
    intro hts
    have hself : ∀ c ∈ t, c.isWhitespace = false := hts t (List.mem_cons_self t ts')
    have hfilt : t.filter (fun c => !c.isWhitespace) = t := by
      rw [List.filter_eq_self]
      intro c hc; simp [hself c hc]
    cases ts' with
    | nil => simp [joinSp, nonWsCount, hfilt]
    | cons t2 ts'' =>
      have hj : joinSp (t :: t2 :: ts'') = t ++ (' ') :: joinSp (t2 :: ts'') := by
        simp [joinSp]
      rw [hj, nonWsCount, List.filter_append, List.length_append]
      have hsp : (fun c => !c.isWhitespace) (' ') = false := by decide
      rw [List.filter_cons_of_neg (by simp)]
      rw [hfilt]
      have := ih (fun u hu => hts u (List.mem_cons_of_mem t hu))
      rw [nonWsCount] at this
      rw [this]
      simp

/-! ### The decode loop applied to encoder runs -/

/-- `decodePairs` restricted to already-parsed natural runs (0-indexed starts). -/
def applyRuns (rs : List (Nat × Nat)) (arr : List Bool) : List Bool :=
  rs.foldl (fun a r => if r.1 + r.2 ≤ a.length then writeRun a r.1 r.2 else a) arr

theorem applyRuns_nil (arr : List Bool) : applyRuns [] arr = arr := rfl

theorem applyRuns_cons (r : Nat × Nat) (rs : List (Nat × Nat)) (arr : List Bool) :
    applyRuns (r :: rs) arr
      = applyRuns rs (if r.1 + r.2 ≤ arr.length then writeRun arr r.1 r.2 else arr) := rfl

theorem writeRun_spec (pre suf : List Bool) (k l : Nat) (hlk : l ≤ k) :
    writeRun (pre ++ (List.replicate k false ++ suf)) pre.length l
      = pre ++ (List.replicate l true ++ (List.replicate (k - l) false ++ suf)) := by
  rw [writeRun, List.take_left]
  have hd : (pre ++ (List.replicate k false ++ suf)).drop (pre.length + l)
      = List.replicate (k - l) false ++ suf := by
    rw [← List.drop_drop, List.drop_left]
    rw [List.drop_append_of_le_length (by simpa using hlk)]
    congr 1
    simp [List.drop_replicate]
  rw [hd, List.append_assoc]

theorem decodePairs_flat (rs : List (Nat × Nat)) :
    ∀ arr : List Bool,
      decodePairs (rs.flatMap (fun r => [((r.1 + 1 : Nat) : Int), ((r.2 : Nat) : Int)])) arr
        = applyRuns rs arr := by
  induction rs with
  | nil => intro arr; simp [decodePairs, applyRuns]
  | cons r rs' ih =>
    intro arr
    rw [List.flatMap_cons, List.cons_append, List.cons_append, List.nil_append,
      decodePairs, applyRuns_cons, ih]
    congr 1
    have hstart : ((r.1 + 1 : Nat) : Int) - 1 = (r.1 : Int) := by push_cast; ring
    rw [hstart]
    have hcond : (0 ≤ (r.1 : Int) ∧ (r.1 : Int) + (r.2 : Int) ≤ (arr.length : Int))
        ↔ r.1 + r.2 ≤ arr.length := by
      constructor
      · rintro ⟨-, h2⟩; exact_mod_cast h2
      · intro h; exact ⟨Int.ofNat_nonneg r.1, by exact_mod_cast h⟩
    by_cases hc : r.1 + r.2 ≤ arr.length
    · rw [if_pos (hcond.mpr hc), if_pos hc, Int.toNat_ofNat, Int.toNat_ofNat]
    · rw [if_neg (fun hx => hc (hcond.mp hx)), if_neg hc]

theorem rleRunsAux_some_ne_nil :
    ∀ (m : List Bool) (p : Nat) (r : Nat × Nat), rleRunsAux m p (some r) ≠ [] := by
  intro m
  induction m with
  | nil => intro p r; simp [rleRunsAux]
  | cons b rest ih =>
    intro p r
    cases b with
    | true => simpa [rleRunsAux] using ih (p + 1) (r.1, r.2 + 1)
    | false => simp [rleRunsAux]

theorem rleRunsAux_none_nil :
    ∀ (m : List Bool) (p : Nat), rleRunsAux m p none = [] → m = zerosMask m.length := by
  intro m
  induction m with
  | nil => intro p _; rfl
  | cons b rest ih =>
    intro p h
    cases b with
    | true => exact absurd h (rleRunsAux_some_ne_nil rest (p + 1) (p, 1))
    | false =>
      rw [rleRunsAux] at h
      simp only [if_false, Bool.false_eq_true] at h
      have := ih (p + 1) h
      simp [zerosMask, List.replicate_succ]
      exact this


/-- Joint invariant of the encoder state machine against the decoder writes:
runs emitted from position `p` rewrite a zero region back into the original
mask, for both machine states. -/
theorem rleRuns_apply (m : List Bool) :
    (∀ p pre suf, pre.length = p →
      applyRuns (rleRunsAux m p none) (pre ++ (List.replicate m.length false ++ suf))
        = pre ++ (m ++ suf))
    ∧ (∀ l pre0 suf,
      applyRuns (rleRunsAux m (pre0.length + l) (some (pre0.length, l)))
          (pre0 ++ (List.replicate (l + m.length) false ++ suf))
        = pre0 ++ (List.replicate l true ++ (m ++ suf))) := by
  induction m with
  | nil =>
    constructor
    · intro p pre suf _
      simp [rleRunsAux, applyRuns_nil]
    · intro l pre0 suf
      rw [rleRunsAux, applyRuns_cons]
      have e3 : (([] : List Bool)).length = 0 := rfl
      rw [e3, Nat.add_zero]
      have hlen : pre0.length + l ≤ (pre0 ++ (List.replicate l false ++ suf)).length := by
        simp
      rw [if_pos hlen, writeRun_spec pre0 suf l l (le_refl l)]
      simp [applyRuns_nil, Nat.sub_self]
  | cons b rest ih =>
    constructor
    · intro p pre suf hpre
      cases b with
      | false =>
        rw [rleRunsAux]
        simp only [if_false, Bool.false_eq_true]
        have harr : pre ++ (List.replicate (false :: rest).length false ++ suf)
            = (pre ++ [false]) ++ (List.replicate rest.length false ++ suf) := by
          simp [List.replicate_succ]
        rw [harr, ih.1 (p + 1) (pre ++ [false]) suf (by simp [hpre])]
        simp
      | true =>
        rw [rleRunsAux]
        simp only [if_true]
        have harr : pre ++ (List.replicate (true :: rest).length false ++ suf)
            = pre ++ (List.replicate (1 + rest.length) false ++ suf) := by
          simp [Nat.add_comm]
        rw [harr, ← hpre, ih.2 1 pre suf]
        simp
    · intro l pre0 suf
      cases b with
      | true =>
        rw [rleRunsAux]
        simp only [if_true]
        have harr : pre0 ++ (List.replicate (l + (true :: rest).length) false ++ suf)
            = pre0 ++ (List.replicate ((l + 1) + rest.length) false ++ suf) := by
          have h : l + (true :: rest).length = (l + 1) + rest.length := by
            simp only [List.length_cons]; omega
          rw [h]
        have hpos : pre0.length + l + 1 = pre0.length + (l + 1) := by omega
        rw [harr, hpos, ih.2 (l + 1) pre0 suf]
        have hrep : List.replicate (l + 1) true = List.replicate l true ++ [true] := by
          rw [List.replicate_succ']
        rw [hrep]
        simp
      | false =>
        rw [rleRunsAux]
        simp only [if_false, Bool.false_eq_true]
        rw [applyRuns_cons]
        have hlen : pre0.length + l
            ≤ (pre0 ++ (List.replicate (l + (false :: rest).length) false ++ suf)).length := by
          simp
          omega
        rw [if_pos hlen,
          writeRun_spec pre0 suf (l + (false :: rest).length) l (by simp)]
        have hz : List.replicate (l + (false :: rest).length - l) false
            = false :: List.replicate rest.length false := by
          have h : l + (false :: rest).length - l = rest.length + 1 := by
            simp only [List.length_cons]; omega
          rw [h, List.replicate_succ]
        rw [hz]
        have harr : pre0 ++ (List.replicate l true
              ++ (false :: List.replicate rest.length false ++ suf))
            = (pre0 ++ List.replicate l true ++ [false])
              ++ (List.replicate rest.length false ++ suf) := by
          simp
        rw [harr, ih.1 (pre0.length + l + 1) (pre0 ++ List.replicate l true ++ [false]) suf
          (by simp; omega)]
        simp

/-! ### Claim C2: RLE round-trip -/

theorem mapInts_runsTokens (rs : List (Nat × Nat)) :
    mapInts (rs.flatMap (fun r => [strOfNat (r.1 + 1), strOfNat r.2]))
      = some (rs.flatMap (fun r => [((r.1 + 1 : Nat) : Int), ((r.2 : Nat) : Int)])) := by
  induction rs with
  | nil => simp [mapInts]
  | cons r rs' ih =>
    simp only [List.flatMap_cons, List.cons_append, List.nil_append]
    rw [mapInts, pyInt_strOfNat, mapInts, pyInt_strOfNat, ih]

theorem runsTokens_flat_length (rs : List (Nat × Nat)) :
    (rs.flatMap (fun r => [((r.1 + 1 : Nat) : Int), ((r.2 : Nat) : Int)])).length
      = 2 * rs.length := by
  induction rs with
  | nil => simp
  | cons r rs' ih =>
    rw [List.flatMap_cons, List.length_append, ih]
    simp only [List.length_cons, List.length_nil]
    omega

theorem runsTokens_props (rs : List (Nat × Nat)) :
    ∀ t ∈ rs.flatMap (fun r => [strOfNat (r.1 + 1), strOfNat r.2]),
      t ≠ [] ∧ ∀ c ∈ t, c.isWhitespace = false := by
  intro t ht
  obtain ⟨r, -, hmem⟩ := List.mem_flatMap.mp ht
  have hform : t = strOfNat (r.1 + 1) ∨ t = strOfNat r.2 := by
    simpa using hmem
  rcases hform with rfl | rfl <;>
    exact ⟨strOfNat_ne_nil _, fun c hc => isDigit_not_ws c (strOfNat_all_digit _ c hc)⟩

theorem rleRunsAux_zeros (n : Nat) : ∀ p, rleRunsAux (List.replicate n false) p none = [] := by
  induction n with
  | zero => intro p; rfl
  | succ k ih =>
    intro p
    rw [List.replicate_succ, rleRunsAux]
    simp only [if_false, Bool.false_eq_true]
    exact ih (p + 1)

/-- Claim C2: for every binary mask of shape `height × width` (modelled
row-major as a `List Bool` of length `height * width`), decoding the RLE
encoding with the same dimensions reproduces the mask exactly; the all-zero
mask encodes to the empty string, and the empty string decodes to the
all-zero mask. -/
theorem claim_C2_rle_roundtrip :
    (∀ (mask : List Bool) (height width : Nat), mask.length = height * width →
      rle_decode (rle_encode mask) height width = mask)
    ∧ (∀ height width : Nat,
      rle_encode (zerosMask (height * width)) = ⟨[]⟩
      ∧ rle_decode ⟨[]⟩ height width = zerosMask (height * width)) := by
  constructor
  · intro mask height width hlen
    have henc : rle_encode mask
        = ⟨joinSp ((rleRunsAux mask 0 none).flatMap
            (fun r => [strOfNat (r.1 + 1), strOfNat r.2]))⟩ := rfl
    cases hr : rleRunsAux mask 0 none with
    | nil =>
      rw [henc, hr]
      simp only [List.flatMap_nil]
      have hmask := rleRunsAux_none_nil mask 0 hr
      have hdec : rle_decode ⟨joinSp []⟩ height width = zerosMask (height * width) := rfl
      rw [hdec, hmask, hlen]
    | cons r rs' =>
      rw [henc, hr]
      set toks := ((r :: rs').flatMap (fun r => [strOfNat (r.1 + 1), strOfNat r.2])) with htoks
      have hprops := runsTokens_props (r :: rs')
      rw [← htoks] at hprops
      have htoksne : toks ≠ [] := by
        rw [htoks]
        simp [List.flatMap_cons]
      have hcount : nonWsCount (joinSp toks) = (toks.map List.length).sum := by
        apply nonWsCount_joinSp
        intro t ht
        exact (hprops t ht).2
      have hge2 : 2 ≤ nonWsCount (joinSp toks) := by
        rw [hcount, htoks]
        simp only [List.flatMap_cons, List.cons_append, List.nil_append, List.map_cons,
          List.sum_cons]
        have h1 : 1 ≤ (strOfNat (r.1 + 1)).length :=
          List.length_pos.mpr (strOfNat_ne_nil (r.1 + 1))
        have h2 : 1 ≤ (strOfNat r.2).length :=
          List.length_pos.mpr (strOfNat_ne_nil r.2)
        omega
      have htl : (⟨joinSp toks⟩ : String).toList = joinSp toks := rfl
      have hcond : ¬((pyStrip (joinSp toks)).isEmpty = true
          ∨ pyStrip (joinSp toks) = [('0')]) := by
        rintro (h | h)
        · have h0 : nonWsCount (pyStrip (joinSp toks)) = 0 := by
            rw [List.isEmpty_iff.mp h]; rfl
          rw [nonWsCount_pyStrip] at h0
          omega
        · have h1 : nonWsCount (pyStrip (joinSp toks)) = 1 := by rw [h]; rfl
          rw [nonWsCount_pyStrip] at h1
          omega
      have hsplit : pySplit (joinSp toks) = toks :=
        pySplit_joinSp toks htoksne hprops
      have hmap := mapInts_runsTokens (r :: rs')
      rw [← htoks] at hmap
      rw [rle_decode]
      simp only [htl]
      rw [if_neg hcond, hsplit, hmap]
      have hodd : (((r :: rs').flatMap
          (fun x => [((x.1 + 1 : Nat) : Int), ((x.2 : Nat) : Int)])).length % 2 ≠ 0) = False := by
        rw [runsTokens_flat_length (r :: rs')]
        simp
      simp only [hodd, if_false]
      rw [decodePairs_flat]
      have happ := (rleRuns_apply mask).1 0 [] [] rfl
      simp only [List.nil_append, List.append_nil] at happ
      rw [← hr] at *
      rw [show zerosMask (height * width) = List.replicate mask.length false from by
        rw [zerosMask, hlen]]
      rw [← hr, happ]
  · intro height width
    constructor
    · rw [rle_encode]
      have : rleRunsAux (zerosMask (height * width)) 0 none = [] :=
        rleRunsAux_zeros (height * width) 0
      rw [zerosMask] at this
      simp only [zerosMask, this, List.flatMap_nil]
      rfl
    · rfl

/-- Witness for claim C2 at a concrete mask and shape. -/
theorem claim_C2_rle_roundtrip_witness :
    ([true, false, true, true] : List Bool).length = 2 * 2
    ∧ rle_decode (rle_encode [true, false, true, true]) 2 2 = [true, false, true, true] :=
  ⟨by decide, claim_C2_rle_roundtrip.1 [true, false, true, true] 2 2 (by decide)⟩

/-! ### Claim C10: totality of `rle_decode` and per-run bounds checking -/

theorem writeRun_zero (arr : List Bool) (s : Nat) : writeRun arr s 0 = arr := by
  rw [writeRun, List.replicate_zero, Nat.add_zero]
  simp [List.take_append_drop]

theorem writeRun_length (arr : List Bool) (s l : Nat) (h : s + l ≤ arr.length) :
    (writeRun arr s l).length = arr.length := by
  rw [writeRun]
  simp only [List.length_append, List.length_take, List.length_replicate, List.length_drop]
  omega

theorem decodeStep_length (arr : List Bool) (x y : Int) :
    ((if 0 ≤ x - 1 ∧ x - 1 + y ≤ (arr.length : Int)
        then writeRun arr (x - 1).toNat y.toNat else arr)).length = arr.length := by
  split
  · next hc =>
    obtain ⟨h0, h1⟩ := hc
    rcases le_or_lt 0 y with hy | hy
    · apply writeRun_length
      omega
    · have : y.toNat = 0 := Int.toNat_of_nonpos (by omega)
      rw [this, writeRun_zero]
  · rfl

theorem decodePairs_length_aux :
    ∀ n (pairs : List Int), pairs.length ≤ n →
      ∀ arr, (decodePairs pairs arr).length = arr.length := by
  intro n
  induction n with
  | zero =>
    intro pairs h arr
    have : pairs = [] := List.eq_nil_of_length_eq_zero (by omega)
    subst this
    rfl
  | succ k ih =>
    intro pairs h arr
    match pairs with
    | [] => rfl
    | [x] => rfl
    | x :: y :: rest =>
      rw [decodePairs]
      rw [ih rest (by simp at h; omega)]
      exact decodeStep_length arr x y

theorem decodePairs_length (pairs : List Int) (arr : List Bool) :
    (decodePairs pairs arr).length = arr.length :=
  decodePairs_length_aux pairs.length pairs (le_refl _) arr

theorem decodePairs_skip_aux :
    ∀ n (pre : List Int), pre.length ≤ n → pre.length % 2 = 0 →
      ∀ (post : List Int) (x y : Int) (arr : List Bool),
        (x - 1 < 0 ∨ (arr.length : Int) < (x - 1) + y) →
        decodePairs (pre ++ x :: y :: post) arr = decodePairs (pre ++ post) arr := by
  intro n
  induction n with
  | zero =>
    intro pre hn hev post x y arr hoob
    have : pre = [] := List.eq_nil_of_length_eq_zero (by omega)
    subst this
    simp only [List.nil_append]
    rw [decodePairs]
    have hc : ¬(0 ≤ x - 1 ∧ x - 1 + y ≤ (arr.length : Int)) := by omega
    rw [if_neg hc]
  | succ k ih =>
    intro pre hn hev post x y arr hoob
    match pre with
    | [] =>
      simp only [List.nil_append]
      rw [decodePairs]
      have hc : ¬(0 ≤ x - 1 ∧ x - 1 + y ≤ (arr.length : Int)) := by omega
      rw [if_neg hc]
    | [a] => simp at hev
    | a :: b :: rest =>
      simp only [List.cons_append]
      rw [decodePairs, decodePairs]
      have hlen : ((if 0 ≤ a - 1 ∧ a - 1 + b ≤ (arr.length : Int)
          then writeRun arr (a - 1).toNat b.toNat else arr)).length = arr.length :=
        decodeStep_length arr a b
      apply ih rest (by simp at hn; omega) (by simp at hev; omega) post x y
      rw [hlen]
      exact hoob

/-- Claim C10: `rle_decode` is total and always returns a `height * width`
mask; a single well-formed run pair that falls outside the mask is skipped
individually while the remaining in-bounds runs are still applied (shown both
in general for the decode loop and on a concrete mixed input). -/
theorem claim_C10_decode_total :
    (∀ (s : String) (height width : Nat),
      (rle_decode s height width).length = height * width)
    ∧ (∀ (pre post : List Int) (x y : Int) (arr : List Bool), pre.length % 2 = 0 →
        (x - 1 < 0 ∨ (arr.length : Int) < (x - 1) + y) →
        decodePairs (pre ++ x :: y :: post) arr = decodePairs (pre ++ post) arr)
    ∧ rle_decode ("1 2 100 5") 2 2 = [true, true, false, false] := by
  refine ⟨?_, ?_, by decide⟩
  · intro s height width
    rw [rle_decode]
    split
    · simp [zerosMask]
    · split
      · simp [zerosMask]
      · split
        · simp [zerosMask]
        · rw [decodePairs_length]
          simp [zerosMask]
  · intro pre post x y arr hev hoob
    exact decodePairs_skip_aux pre.length pre (le_refl _) hev post x y arr hoob

/-- Witness for claim C10: a concrete out-of-bounds pair `(100, 5)` after an
even prefix is a no-op of the decode loop. -/
theorem claim_C10_decode_total_witness :
    ([(1 : Int), 2].length % 2 = 0)
    ∧ decodePairs ([(1 : Int), 2] ++ (100 : Int) :: (5 : Int) :: []) (zerosMask 4)
      = decodePairs ([(1 : Int), 2] ++ []) (zerosMask 4) :=
  ⟨by decide, claim_C10_decode_total.2.1 [(1 : Int), 2] [] 100 5 (zerosMask 4)
    (by decide) (by decide)⟩

/-! ### Detection engine (`detection.py`)

Rows are modelled post-column-auto-detection: a prediction row carries
(image id, class, confidence, box), a ground-truth row (image id, class, box).
All coordinates and confidences are exact rationals. -/

/-- Bounding box `(xmin, ymin, xmax, ymax)` (a 4-tuple in the source). -/
structure Box where
  xmin : ℚ
  ymin : ℚ
  xmax : ℚ
  ymax : ℚ
deriving DecidableEq

/-- `calculate_iou(box1, box2)` from `detection.py`. -/
def calculate_iou (box1 box2 : Box) : ℚ :=
  let x1 := max box1.xmin box2.xmin
  let y1 := max box1.ymin box2.ymin
  let x2 := min box1.xmax box2.xmax
  let y2 := min box1.ymax box2.ymax
  let intersection := qmul (max 0 (qsub x2 x1)) (max 0 (qsub y2 y1))
  let area1 := qmul (qsub box1.xmax box1.xmin) (qsub box1.ymax box1.ymin)
  let area2 := qmul (qsub box2.xmax box2.xmin) (qsub box2.ymax box2.ymin)
  let union := qsub (qadd area1 area2) intersection
  if union = 0 then 0 else qdiv intersection union

/-- The in-place right-to-left precision envelope
(`precision[i] = max(precision[i], precision[i+1])`): suffix maxima. -/
def envFromRight : List ℚ → List ℚ
  | [] => []
  | a :: rest =>
    match envFromRight rest with
    | [] => [a]
    | b :: t => max a b :: b :: t

/-- Inner loop of the 11-point interpolation: best precision among points
with recall at or above `t` (`p = max(p, pr)` whenever `r >= t`). -/
def maxPrecAt (t : ℚ) (pairs : List (ℚ × ℚ)) : ℚ :=
  pairs.foldl (fun p rp => if t ≤ rp.1 then max p rp.2 else p) 0

/-- `np.linspace(0, 1, 11)` in exact arithmetic. -/
def apThresholds : List ℚ := (List.range 11).map (fun i => qdiv ((i : Nat) : ℚ) 10)

/-- `calculate_ap(precision, recall)`: 11-point interpolated average precision
(the `+= p / 11` accumulation is summed exactly). -/
def calculate_ap (precision recall_ : List ℚ) : ℚ :=
  if precision.length = 0 ∨ recall_.length = 0 then 0
  else
    let p := (0 : ℚ) :: precision ++ [(0 : ℚ)]
    let r := (0 : ℚ) :: recall_ ++ [(1 : ℚ)]
    let penv := envFromRight p
    qdiv (qsum (apThresholds.map (fun t => maxPrecAt t (r.zip penv)))) 11

/-- Prediction row (post auto-detection columns). -/
structure DetPred where
  img : String
  cls : String
  conf : ℚ
  box : Box
deriving DecidableEq

/-- Ground-truth row (post auto-detection columns). -/
structure DetGt where
  img : String
  cls : String
  box : Box
deriving DecidableEq

/-- Insertion step of the descending-confidence sort (stable; the source's
`sort_values` leaves tie order unspecified, see spec §9). -/
def insertByConf (p : DetPred) : List DetPred → List DetPred
  | [] => [p]
  | q :: rest => if q.conf < p.conf then p :: q :: rest else q :: insertByConf p rest

/-- `class_preds.sort_values("confidence", ascending=False)`. -/
def sortByConfDesc (l : List DetPred) : List DetPred := l.foldr insertByConf []

/-- First-occurrence distinct elements (models iterating a `set` / `groupby`
key set; every use below is order-insensitive). -/
def uniq {α : Type} [DecidableEq α] : List α → List α
  | [] => []
  | a :: l => a :: (uniq l).filter (fun x => x ≠ a)

/-- Boxes of one image in row order (`gt_boxes[image_id]`). -/
def gtBoxesFor (gts : List DetGt) (img : String) : List Box :=
  (gts.filter (fun g => g.img = img)).map (fun g => g.box)

/-- The keys of `gt_boxes` (images present in the class ground truth). -/
def gtImages (gts : List DetGt) : List String := uniq (gts.map (fun g => g.img))

/-- `gt_matched`: one `False` flag per ground-truth box, per image. -/
def flagsInit (gts : List DetGt) : List (String × List Bool) :=
  (gtImages gts).map (fun i => (i, List.replicate (gtBoxesFor gts i).length false))

def lookupFlags (m : List (String × List Bool)) (img : String) : List Bool :=
  match m.find? (fun e => e.1 = img) with
  | some e => e.2
  | none => []

def setFlag (m : List (String × List Bool)) (img : String) (idx : Nat) :
    List (String × List Bool) :=
  m.map (fun e => if e.1 = img then (e.1, e.2.set idx true) else e)

/-- The best-IoU unmatched ground-truth box search (`best_iou = 0.0`,
`best_gt_idx = -1`, strict improvement `iou > best_iou`). -/
def bestUnmatched (predBox : Box) (boxes : List Box) (flags : List Bool) : ℚ × Int :=
  (List.range boxes.length).foldl
    (fun acc idx =>
      if flags.getD idx false then acc
      else
        let iou := calculate_iou predBox (boxes.getD idx ⟨0, 0, 0, 0⟩)
        if acc.1 < iou then (iou, (idx : Int)) else acc)
    (0, -1)

/-- The per-prediction matching loop of `_calculate_ap_per_class`, in
descending-confidence order, threading the `gt_matched` flags; returns the
`tp` and `fp` 0/1 lists. -/
def detMatch (thr : ℚ) (classGts : List DetGt) :
    List DetPred → List (String × List Bool) → List Nat × List Nat
  | [], _ => ([], [])
  | p :: rest, flags =>
    if ((gtImages classGts).contains p.img) = false then
      let r := detMatch thr classGts rest flags
      (0 :: r.1, 1 :: r.2)
    else
      let boxes := gtBoxesFor classGts p.img
      let fl := lookupFlags flags p.img
      let best := bestUnmatched p.box boxes fl
      if thr ≤ best.1 ∧ 0 ≤ best.2 then
        let r := detMatch thr classGts rest (setFlag flags p.img best.2.toNat)
        (1 :: r.1, 0 :: r.2)
      else
        let r := detMatch thr classGts rest flags
        (0 :: r.1, 1 :: r.2)

/-- `np.cumsum`. -/
def cumsum (acc : Nat) : List Nat → List Nat
  | [] => []
  | x :: xs => (acc + x) :: cumsum (acc + x) xs

/-- `_calculate_ap_per_class(pred_df, gt_df, class_label, iou_threshold)`. -/
def detApPerClass (preds : List DetPred) (gts : List DetGt)
    (classLabel : String) (iouThreshold : ℚ) : ℚ :=
  let classPreds := preds.filter (fun p => p.cls = classLabel)
  let classGts := gts.filter (fun g => g.cls = classLabel)
  if classGts.length = 0 ∨ classPreds.length = 0 then 0
  else
    let sorted := sortByConfDesc classPreds
    let tpfp := detMatch iouThreshold classGts sorted (flagsInit classGts)
    let tpc := cumsum 0 tpfp.1
    let fpc := cumsum 0 tpfp.2
    let totalGt := classGts.length
    let precision := List.zipWith (fun t f => qdiv ((t : Nat) : ℚ) (((t + f : Nat)) : ℚ)) tpc fpc
    let recall_ := tpc.map (fun t => qdiv ((t : Nat) : ℚ) ((totalGt : Nat) : ℚ))
    calculate_ap precision recall_

/-- `np.mean(l) if l else 0.0` (exact mean). -/
def meanOrZero (l : List ℚ) : ℚ :=
  if l.length = 0 then 0 else qdiv (qsum l) ((l.length : Nat) : ℚ)

/-- `np.arange(start, stop, step)` in exact arithmetic
(`ceil((stop - start) / step)` equally spaced values). -/
def arangeQ (start stop step : ℚ) : List ℚ :=
  (List.range (Int.toNat ⌈qdiv (qsub stop start) step⌉)).map
    (fun i => qadd start (qmul ((i : Nat) : ℚ) step))

/-- `np.arange(0.5, 1.0, 0.05)` of the `MAP_50_95` branch. -/
def detIouThresholds : List ℚ := arangeQ (qdiv 1 2) 1 (qdiv 1 20)

/-- The metrics dictionaries built by the two branches of the detection
`calculate_score` (fixed keys modelled as constructor fields). -/
inductive DetMetrics where
  | map5095 (mAP : ℚ) (numClasses numPredictions numGroundTruth : Nat)
  | map50 (mAP : ℚ) (perClassAp : List (String × ℚ))
      (numClasses numPredictions numGroundTruth : Nat)
deriving DecidableEq

/-- `ScoringResult` (`base.py`): the metrics payload type varies per engine. -/
structure ScoringResult (μ : Type) where
  success : Bool
  score : Option ℚ := none
  metrics : Option μ := none
  errorMessage : Option String := none
  logs : Option (List String) := none
deriving DecidableEq

/-- Left-pad with zeros to width `w` (fraction digits of `"%.4f"`). -/
def padZeros (w : Nat) (cs : List Char) : List Char :=
  List.replicate (w - cs.length) ('0') ++ cs

/-- Python `f"{x:.4f}"` on an exact rational. -/
def fmt4 (q : ℚ) : String :=
  let n := roundHalfEven (qmul q 10000)
  let a := n.natAbs
  let body := strOfNat (a / 10000) ++ ('.') :: padZeros 4 (strOfNat (a % 10000))
  ⟨if n < 0 then ('-') :: body else body⟩

/-- Detection `calculate_score(prediction_df, ground_truth_df)`: both metric
branches; `logs0` is the engine's accumulated log buffer (`self.logs`), and the
returned buffer is also stored in `result.logs` (the source aliases them). -/
def detCalcScore (metricType : String) (preds : List DetPred) (gts : List DetGt)
    (logs0 : List String) : ScoringResult DetMetrics × List String :=
  let allClasses := uniq (gts.map (fun g => g.cls))
  let predClasses := uniq (preds.map (fun p => p.cls))
  let logs1 := logs0 ++ ["[INFO] GT classes: " ++ ⟨strOfNat allClasses.length⟩
    ++ ", Pred classes: " ++ ⟨strOfNat predClasses.length⟩]
  if metricType = ("MAP_50_95") then
    let allAps := detIouThresholds.map (fun t =>
      meanOrZero (allClasses.map (fun c => detApPerClass preds gts c t)))
    let mAP := meanOrZero allAps
    let logs2 := logs1 ++ ["[INFO] mAP@[0.5:0.95]: " ++ fmt4 mAP]
    ({ success := true, score := some (roundq 6 mAP),
       metrics := some (DetMetrics.map5095 (roundq 6 mAP) allClasses.length
         preds.length gts.length),
       logs := some logs2 }, logs2)
  else
    let classAps := allClasses.map
      (fun c => (c, roundq 4 (detApPerClass preds gts c (qdiv 1 2))))
    let mAP := meanOrZero (classAps.map (fun e => e.2))
    let logs2 := logs1 ++ ["[INFO] mAP@0.5: " ++ fmt4 mAP]
    ({ success := true, score := some (roundq 6 mAP),
       metrics := some (DetMetrics.map50 (roundq 6 mAP) classAps allClasses.length
         preds.length gts.length),
       logs := some logs2 }, logs2)

/-- Claim C8 counterexample: for the degenerate box `(0, 0, 0, 0)` the union
is `0`, so `calculate_iou(box, box)` returns `0`, not `1.0` as claimed. -/
theorem claim_C8_counterexample :
    ¬ (calculate_iou ⟨0, 0, 0, 0⟩ ⟨0, 0, 0, 0⟩ = 1) := by decide

/-- Claim C8 (amended): `calculate_iou(box, box) = 1.0` for every box with
positive width and height (the degenerate case returns 0); IoU is symmetric;
non-overlapping boxes (empty intersection) give 0.0; and a zero union
(computed as `area1 + area2 - intersection`) gives 0. -/
theorem claim_C8_iou_amended :
    (∀ b : Box, b.xmin < b.xmax → b.ymin < b.ymax → calculate_iou b b = 1)
    ∧ (∀ a b : Box, calculate_iou a b = calculate_iou b a)
    ∧ (∀ a b : Box,
        (min a.xmax b.xmax ≤ max a.xmin b.xmin ∨ min a.ymax b.ymax ≤ max a.ymin b.ymin) →
        calculate_iou a b = 0)
    ∧ (∀ a b : Box,
        qsub (qadd (qmul (qsub a.xmax a.xmin) (qsub a.ymax a.ymin))
                   (qmul (qsub b.xmax b.xmin) (qsub b.ymax b.ymin)))
             (qmul (max 0 (qsub (min a.xmax b.xmax) (max a.xmin b.xmin)))
                   (max 0 (qsub (min a.ymax b.ymax) (max a.ymin b.ymin)))) = 0 →
        calculate_iou a b = 0) := by
  refine ⟨?_, ?_, ?_, ?_⟩
  · intro b hx hy
    simp only [calculate_iou, qadd_eq, qsub_eq, qmul_eq, qdiv_eq, max_self, min_self]
    have hxp : (0 : ℚ) < b.xmax - b.xmin := by linarith
    have hyp : (0 : ℚ) < b.ymax - b.ymin := by linarith
    rw [max_eq_right hxp.le, max_eq_right hyp.le]
    have hA : (0 : ℚ) < (b.xmax - b.xmin) * (b.ymax - b.ymin) := mul_pos hxp hyp
    rw [if_neg (by intro h; rw [show (b.xmax - b.xmin) * (b.ymax - b.ymin)
        + (b.xmax - b.xmin) * (b.ymax - b.ymin)
        - (b.xmax - b.xmin) * (b.ymax - b.ymin)
        = (b.xmax - b.xmin) * (b.ymax - b.ymin) from by ring] at h; exact hA.ne' h)]
    rw [show (b.xmax - b.xmin) * (b.ymax - b.ymin)
        + (b.xmax - b.xmin) * (b.ymax - b.ymin)
        - (b.xmax - b.xmin) * (b.ymax - b.ymin)
        = (b.xmax - b.xmin) * (b.ymax - b.ymin) from by ring]
    exact div_self hA.ne'
  · intro a b
    simp only [calculate_iou, qadd_eq, qsub_eq, qmul_eq, qdiv_eq]
    have hI : max 0 (min a.xmax b.xmax - max a.xmin b.xmin)
          * max 0 (min a.ymax b.ymax - max a.ymin b.ymin)
        = max 0 (min b.xmax a.xmax - max b.xmin a.xmin)
          * max 0 (min b.ymax a.ymax - max b.ymin a.ymin) := by
      rw [max_comm a.xmin, max_comm a.ymin, min_comm a.xmax, min_comm a.ymax]
    have hU : (a.xmax - a.xmin) * (a.ymax - a.ymin) + (b.xmax - b.xmin) * (b.ymax - b.ymin)
        = (b.xmax - b.xmin) * (b.ymax - b.ymin) + (a.xmax - a.xmin) * (a.ymax - a.ymin) :=
      add_comm _ _
    rw [hI, hU]
  · intro a b h
    simp only [calculate_iou, qadd_eq, qsub_eq, qmul_eq, qdiv_eq]
    have hI : max 0 (min a.xmax b.xmax - max a.xmin b.xmin)
        * max 0 (min a.ymax b.ymax - max a.ymin b.ymin) = 0 := by
      rcases h with h | h
      · rw [max_eq_left (by linarith), zero_mul]
      · rw [max_eq_left (b := min a.ymax b.ymax - max a.ymin b.ymin) (by linarith), mul_zero]
    rw [hI]
    split
    · rfl
    · rw [zero_div]
  · intro a b h
    simp only [qadd_eq, qsub_eq, qmul_eq] at h
    simp only [calculate_iou, qadd_eq, qsub_eq, qmul_eq, qdiv_eq]
    rw [if_pos h]

/-- Witness for claim C8 at the unit box. -/
theorem claim_C8_iou_amended_witness :
    ((⟨0, 0, 1, 1⟩ : Box).xmin < (⟨0, 0, 1, 1⟩ : Box).xmax)
    ∧ calculate_iou ⟨0, 0, 1, 1⟩ ⟨0, 0, 1, 1⟩ = 1 :=
  ⟨by decide, claim_C8_iou_amended.1 ⟨0, 0, 1, 1⟩ (by decide) (by decide)⟩

/-- Claim C3: per-class average precision is 0.0 whenever the class has no
predictions or no ground truth; and a single ground-truth box matched by a
single identical prediction (IoU 1.0, at or above the threshold) yields
11-point interpolated AP 1.0. -/
theorem claim_C3_detection_ap :
    (∀ (preds : List DetPred) (gts : List DetGt) (c : String) (thr : ℚ),
      (preds.filter (fun p => p.cls = c) = [] ∨ gts.filter (fun g => g.cls = c) = []) →
      detApPerClass preds gts c thr = 0)
    ∧ (∀ (img c : String) (conf : ℚ) (b : Box) (thr : ℚ),
      calculate_iou b b = 1 → thr ≤ 1 →
      detApPerClass [⟨img, c, conf, b⟩] [⟨img, c, b⟩] c thr = 1) := by
  constructor
  · intro preds gts c thr h
    simp only [detApPerClass]
    rcases h with h | h
    · rw [h]
      simp
    · rw [h]
      simp
  · intro img c conf b thr hiou hthr
    have hfilp : ([⟨img, c, conf, b⟩] : List DetPred).filter (fun p => p.cls = c)
        = [⟨img, c, conf, b⟩] := by simp
    have hfilg : ([⟨img, c, b⟩] : List DetGt).filter (fun g => g.cls = c)
        = [⟨img, c, b⟩] := by simp
    have hboxes : gtBoxesFor [⟨img, c, b⟩] img = [b] := by simp [gtBoxesFor]
    have hflags : flagsInit [⟨img, c, b⟩] = [(img, [false])] := by
      simp [flagsInit, gtImages, uniq, hboxes]
    have hfl : lookupFlags [(img, [false])] img = [false] := by simp [lookupFlags]
    have hbest : bestUnmatched b [b] [false] = (1, 0) := by
      have e1 : ([b] : List Box).getD 0 ⟨0, 0, 0, 0⟩ = b := rfl
      have hr : List.range ([b] : List Box).length = [0] := rfl
      rw [bestUnmatched, hr]
      simp only [List.foldl_cons, List.foldl_nil, List.getD]
      simp [e1, hiou]
    have hcont : ((gtImages [⟨img, c, b⟩]).contains img) = true := by
      simp [gtImages, uniq]
    have hmatch : detMatch thr [⟨img, c, b⟩] [⟨img, c, conf, b⟩] (flagsInit [⟨img, c, b⟩])
        = ([1], [0]) := by
      rw [detMatch, hflags]
      simp only [hcont]
      rw [if_neg (by simp)]
      rw [hboxes, hfl, hbest]
      rw [if_pos ⟨hthr, by decide⟩]
      rfl
    simp only [detApPerClass]
    rw [hfilp, hfilg]
    rw [if_neg (by simp)]
    have hsort : sortByConfDesc [⟨img, c, conf, b⟩] = [⟨img, c, conf, b⟩] := rfl
    rw [hsort, hmatch]
    rw [show ([⟨img, c, b⟩] : List DetGt).length = 1 from rfl]
    decide

/-- Witness for claim C3 at a concrete one-box instance, threshold 0.5. -/
theorem claim_C3_detection_ap_witness :
    calculate_iou ⟨0, 0, 1, 1⟩ ⟨0, 0, 1, 1⟩ = 1
    ∧ (qdiv 1 2 : ℚ) ≤ 1
    ∧ detApPerClass [⟨("i"), ("c"), 1, ⟨0, 0, 1, 1⟩⟩] [⟨("i"), ("c"), ⟨0, 0, 1, 1⟩⟩]
        ("c") (qdiv 1 2) = 1 :=
  ⟨by decide, by decide,
    claim_C3_detection_ap.2 ("i") ("c") 1 ⟨0, 0, 1, 1⟩ (qdiv 1 2) (by decide) (by decide)⟩

/-- Claim C7 (amended): for metric `MAP_50_95` the detection score equals the
mean over exactly the ten IoU thresholds
`{0.50, 0.55, 0.60, 0.65, 0.70, 0.75, 0.80, 0.85, 0.90, 0.95}` (the exact
values of `np.arange(0.5, 1.0, 0.05)`) of the per-threshold mean of per-class
AP over the classes present in ground truth — rounded to 6 decimal places
(the rounding is what the original claim omits). -/
theorem claim_C7_map5095_amended (preds : List DetPred) (gts : List DetGt) (logs0 : List String) :
    (detCalcScore ("MAP_50_95") preds gts logs0).1.score
      = some (roundq 6 (meanOrZero
          (([qdiv 1 2, qdiv 11 20, qdiv 3 5, qdiv 13 20, qdiv 7 10, qdiv 3 4, qdiv 4 5,
             qdiv 17 20, qdiv 9 10, qdiv 19 20]).map
            (fun t => meanOrZero ((uniq (gts.map (fun g => g.cls))).map
              (fun c => detApPerClass preds gts c t)))))) := by
  have hthr : detIouThresholds
      = [qdiv 1 2, qdiv 11 20, qdiv 3 5, qdiv 13 20, qdiv 7 10, qdiv 3 4, qdiv 4 5,
         qdiv 17 20, qdiv 9 10, qdiv 19 20] := by decide
  simp only [detCalcScore]
  rw [if_pos trivial, hthr]

set_option maxRecDepth 1000000 in
/-- Claim C7 counterexample: on a concrete input whose exact mean AP is
`6/11`, the returned score is `round(6/11, 6) = 0.545455`, which differs from
the exact mean the claim asserts. -/
theorem claim_C7_counterexample :
    (detCalcScore ("MAP_50_95") [⟨("i"), ("c"), 1, ⟨0, 0, 10, 10⟩⟩]
        [⟨("i"), ("c"), ⟨0, 0, 10, 10⟩⟩, ⟨("i"), ("c"), ⟨20, 20, 30, 30⟩⟩] []).1.score
      = some (Rat.divInt 545455 1000000)
    ∧ meanOrZero (detIouThresholds.map (fun t => meanOrZero
        ((uniq (([⟨("i"), ("c"), ⟨0, 0, 10, 10⟩⟩,
                  ⟨("i"), ("c"), ⟨20, 20, 30, 30⟩⟩] : List DetGt).map (fun g => g.cls))).map
          (fun c => detApPerClass [⟨("i"), ("c"), 1, ⟨0, 0, 10, 10⟩⟩]
            [⟨("i"), ("c"), ⟨0, 0, 10, 10⟩⟩, ⟨("i"), ("c"), ⟨20, 20, 30, 30⟩⟩] c t))))
      = Rat.divInt 6 11
    ∧ (some (Rat.divInt 545455 1000000) : Option ℚ) ≠ some (Rat.divInt 6 11) := by
  refine ⟨by decide, by decide, by decide⟩

/-! ### Base engine (`base.py`): the `score()` orchestration

An engine bound to fixed ground-truth and prediction sources is modelled by
the deterministic outcomes of its four steps.  Exceptions escaping `score()`
surface as `Except.error (message, log buffer at raise)`; everything the
`try/except` blocks of the source catch is folded into the step outcomes.
The aliasing of `self.logs` into `result.logs` by the task engines is
expressed by `LogsSpec`, so that `result.logs = self.logs + (result.logs or
[])` in `score()` reproduces the run-time lists exactly. -/

/-- How a `calculate_score` result's `logs` field relates to the engine's
log buffer at return time. -/
inductive LogsSpec where
  | noLogs
  | aliasPlus (extra : List String)
  | fixed (l : Option (List String))
deriving DecidableEq

/-- The non-`logs` payload of a `ScoringResult` built by `calculate_score`. -/
structure CoreResult (μ : Type) where
  success : Bool
  score : Option ℚ := none
  metrics : Option μ := none
  errorMessage : Option String := none
deriving DecidableEq

/-- Deterministic step outcomes of one engine for one (ground truth,
prediction) pair: `loadGT` gives (returned flag, cached `ground_truth_df`,
emitted logs) — the cached table can be set even on failure, as in the
auto-detection overrides; `calculate_score`'s `Except.error` carries the exception
message and the log lines emitted before the raise. -/
structure EngineModel (τ μ : Type) where
  loadGT : Bool × Option τ × List String
  loadPred : Option τ × List String
  validate : τ → Except String (Bool × String)
  calculate_score :
    τ → Option τ → Except (String × List String) (CoreResult μ × List String × LogsSpec)

/-- Mutable engine state across `score()` calls. -/
structure EngState (τ : Type) where
  gt : Option τ
  logs : List String

/-- The `logs` field of the result `calculate_score` returned, given the
buffer contents at return time. -/
def resolveLogs (spec : LogsSpec) (buffer : List String) : Option (List String) :=
  match spec with
  | .noLogs => none
  | .aliasPlus extra => some (buffer ++ extra)
  | .fixed l => l

/-- The `calculate_score` try/except of `score()` and the final log merge
(`result.logs = self.logs + (result.logs or [])`), applied to the call's
outcome. -/
def calcStep {τ μ : Type} (cout : Except (String × List String)
    (CoreResult μ × List String × LogsSpec)) (gtOpt : Option τ) (logsB : List String) :
    Except (String × List String) (ScoringResult μ) × EngState τ :=
  match cout with
  | .error er =>
    let buf := logsB ++ er.2 ++ ["[ERROR] Scoring failed: " ++ er.1]
    (Except.ok
      { success := false
        errorMessage := some er.1
        logs := some buf },
      { gt := gtOpt, logs := buf })
  | .ok cr =>
    let buf := logsB ++ cr.2.1
    (Except.ok
      { success := cr.1.success
        score := cr.1.score
        metrics := cr.1.metrics
        errorMessage := cr.1.errorMessage
        logs := some (buf ++ (resolveLogs cr.2.2 buf).getD []) },
      { gt := gtOpt, logs := buf })

/-- The format-validation step of `score()`, applied to the outcome of
`validate_prediction_format` (whose exceptions `score()` does not catch). -/
def validateStep {τ μ : Type} (E : EngineModel τ μ)
    (vout : Except String (Bool × String)) (predT : τ) (gtOpt : Option τ)
    (logsB : List String) :
    Except (String × List String) (ScoringResult μ) × EngState τ :=
  match vout with
  | .error e => (Except.error (e, logsB), { gt := gtOpt, logs := logsB })
  | .ok vr =>
    if vr.1 = false then
      (Except.ok
        { success := false
          errorMessage := some vr.2
          logs := some logsB },
        { gt := gtOpt, logs := logsB })
    else calcStep (E.calculate_score predT gtOpt) gtOpt logsB

/-- The prediction-loading step of `score()`, applied to `load_prediction`'s
outcome. -/
def predStep {τ μ : Type} (E : EngineModel τ μ) (pout : Option τ × List String)
    (gtOpt : Option τ) (logsA : List String) :
    Except (String × List String) (ScoringResult μ) × EngState τ :=
  let logsB := logsA ++ pout.2
  match pout.1 with
  | none =>
    (Except.ok
      { success := false
        errorMessage := some ("Failed to load prediction file")
        logs := some logsB },
      { gt := gtOpt, logs := logsB })
  | some predT => validateStep E (E.validate predT) predT gtOpt logsB

/-- `score()` from the prediction-loading step on (ground truth resolved). -/
def runScoreRest {τ μ : Type} (E : EngineModel τ μ) (gtOpt : Option τ)
    (logsA : List String) :
    Except (String × List String) (ScoringResult μ) × EngState τ :=
  predStep E E.loadPred gtOpt logsA

/-- `score(prediction_path)`: reset the log buffer, ensure ground truth is
loaded (caching whatever the loader stored), then load, validate and score
the prediction.  `Except.error` means a Python exception escaped `score()`. -/
def runScore {τ μ : Type} (E : EngineModel τ μ) (st : EngState τ) :
    Except (String × List String) (ScoringResult μ) × EngState τ :=
  match st.gt with
  | none =>
    let lg := E.loadGT
    if lg.1 = false then
      (Except.ok
        { success := false
          errorMessage := some ("Failed to load ground truth")
          logs := some lg.2.2 },
        { gt := lg.2.1, logs := lg.2.2 })
    else runScoreRest E lg.2.1 lg.2.2
  | some df => runScoreRest E (some df) []

/-! ### Classification engine (`classification.py`)

Tables are raw CSV content: a header row of column-name strings and rows of
string cells (`RawTable`); cell access is by column name through the header
index, as pandas does after `read_csv`.  Sources (`ground_truth_path`,
`prediction_path`) are modelled as `Except String RawTable`: `.error msg`
is an unreadable file (the exception text), `.ok t` its parsed content. -/

structure RawTable where
  header : List String
  rows : List (List String)
deriving DecidableEq

/-- The values of one named column (`df[name]`), row order preserved. -/
def colVals (t : RawTable) (name : String) : List String :=
  t.rows.map (fun r => r.getD (t.header.indexOf name) (""))

/-- Auto-detected `(id_column, label_column)`: the first two header names,
`none` when detection never succeeded (unreadable file or fewer than two
columns) and the instance attributes remain `None`. -/
def clsCols (gtSrc : Except String RawTable) : Option (String × String) :=
  match gtSrc with
  | .error _ => none
  | .ok t =>
    if t.header.length < 2 then none
    else some (t.header.getD 0 (""), t.header.getD 1 (""))

/-- Classification `load_ground_truth()` outcome: (returned flag, cached
`ground_truth_df`, emitted logs).  Note the base implementation caches the
dataframe before the override's column check can fail. -/
def clsLoadGT (gtSrc : Except String RawTable) : Bool × Option RawTable × List String :=
  match gtSrc with
  | .error e => (false, none, ["[ERROR] Failed to load ground truth: " ++ e])
  | .ok t =>
    let l0 := ["[INFO] Loaded ground truth with " ++ (⟨strOfNat t.rows.length⟩ : String)
      ++ " rows"]
    if t.header.length < 2 then
      (false, some t, l0 ++ ["[ERROR] Ground truth must have at least 2 columns"])
    else
      (true, some t,
        l0 ++ ["[INFO] Auto-detected columns: ID=\x27" ++ t.header.getD 0 ("")
          ++ "\x27, Label=\x27" ++ t.header.getD 1 ("") ++ "\x27"])

/-- Base `load_prediction(path)` outcome. -/
def loadPredOutcome (predSrc : Except String RawTable) : Option RawTable × List String :=
  match predSrc with
  | .error e => (none, ["[ERROR] Failed to load prediction: " ++ e])
  | .ok t =>
    (some t, ["[INFO] Loaded prediction with " ++ (⟨strOfNat t.rows.length⟩ : String)
      ++ " rows"])

/-- `", ".join(l)`. -/
def joinComma : List String → String
  | [] => ("")
  | [s] => s
  | s :: rest => s ++ ", " ++ joinComma rest

/-- Python `repr` of a set of strings, rendered in list order (the real set
iteration order is unspecified; no claim depends on it). -/
def pySetRepr (l : List String) : String :=
  "\x7b" ++ joinComma (l.map (fun s => "\x27" ++ s ++ "\x27")) ++ "\x7d"

/-- Classification `validate_prediction_format`: missing-column check, then
the duplicate-id check.  `df[self.id_column]` raises `KeyError` when
`id_column` is `None` (auto-detection never ran) or absent — the only
uncaught exception path inside `score()`. -/
def clsValidate (gtSrc : Except String RawTable) (p : RawTable) :
    Except String (Bool × String) :=
  let req := match clsCols gtSrc with
    | some ab => [ab.1, ab.2]
    | none => []
  let missing := req.filter (fun c => !(p.header.contains c))
  if missing.isEmpty = false then
    Except.ok (false, "Missing required columns: " ++ pySetRepr missing
      ++ ". Expected columns: [" ++ joinComma req ++ "]")
  else
    match clsCols gtSrc with
    | none => Except.error ("KeyError: None")
    | some ab =>
      if p.header.contains ab.1 then
        if (colVals p ab.1).Nodup then Except.ok (true, (""))
        else Except.ok (false, "Prediction contains duplicate " ++ ab.1 ++ " values")
      else Except.error ("KeyError: \x27" ++ ab.1 ++ "\x27")

/-- The output of sklearn's `classification_report(..., output_dict=True,
zero_division=0)`: per-label precision/recall/F1/support, the macro and
weighted averages and the accuracy.  Dict iteration order is irrelevant to
every use (lookups and means), so labels are kept in first-occurrence
order. -/
structure ClsReport where
  accuracy : ℚ
  perClass : List (String × ℚ × ℚ × ℚ × Nat)
  macroP : ℚ
  macroR : ℚ
  macroF : ℚ
  weightedP : ℚ
  weightedR : ℚ
  weightedF : ℚ
deriving DecidableEq

/-- `classification_report` itself; `none` models the exception sklearn
raises on empty inputs, which `_generate_report` catches (returning `{}`).
With `zero_division=0`, a zero denominator yields 0 — which is also the
convention of rational division by zero used here. -/
def genReport (yTrue yPred : List String) : Option ClsReport :=
  if yTrue.length = 0 then none
  else
    let labels := uniq (yTrue ++ yPred)
    let pairs := yTrue.zip yPred
    let stat := fun (c : String) =>
      let tp := (pairs.filter (fun x => x.1 = c ∧ x.2 = c)).length
      let predC := (yPred.filter (fun x => x = c)).length
      let trueC := (yTrue.filter (fun x => x = c)).length
      let prec := qdiv ((tp : Nat) : ℚ) ((predC : Nat) : ℚ)
      let rcl := qdiv ((tp : Nat) : ℚ) ((trueC : Nat) : ℚ)
      let f1 := qdiv (qmul 2 (qmul prec rcl)) (qadd prec rcl)
      (prec, rcl, f1, trueC)
    let perClass := labels.map (fun c => (c, stat c))
    let nl := ((labels.length : Nat) : ℚ)
    let nt := ((yTrue.length : Nat) : ℚ)
    some
      { accuracy := qdiv (((pairs.filter (fun x => x.1 = x.2)).length : Nat) : ℚ) nt
        perClass := perClass
        macroP := qdiv (qsum (perClass.map (fun e => e.2.1))) nl
        macroR := qdiv (qsum (perClass.map (fun e => e.2.2.1))) nl
        macroF := qdiv (qsum (perClass.map (fun e => e.2.2.2.1))) nl
        weightedP := qdiv (qsum (perClass.map
          (fun e => qmul ((e.2.2.2.2 : Nat) : ℚ) e.2.1))) nt
        weightedR := qdiv (qsum (perClass.map
          (fun e => qmul ((e.2.2.2.2 : Nat) : ℚ) e.2.2.1))) nt
        weightedF := qdiv (qsum (perClass.map
          (fun e => qmul ((e.2.2.2.2 : Nat) : ℚ) e.2.2.2.1))) nt }

/-- The metrics dictionary of `_extract_metrics` (fixed keys as fields). -/
structure ClsMetrics where
  ACCURACY : ℚ
  F1_MACRO : ℚ
  F1_MICRO : ℚ
  F1_WEIGHTED : ℚ
  PRECISION_MACRO : ℚ
  PRECISION_MICRO : ℚ
  PRECISION_WEIGHTED : ℚ
  RECALL_MACRO : ℚ
  RECALL_MICRO : ℚ
  RECALL_WEIGHTED : ℚ
  total_samples : Nat
  missing_predictions : Nat
  per_class_report : ClsReport
  F1 : ℚ
  PRECISION : ℚ
  RECALL : ℚ
  CLASS_F1 : ℚ
  CLASS_PRECISION : ℚ
  CLASS_RECALL : ℚ
deriving DecidableEq

/-- `_extract_metrics(report, total_samples, missing_count)`. -/
def extract_metrics (rpt : ClsReport) (totalSamples missingCount : Nat)
    (target : Option String) : ClsMetrics :=
  let acc6 := roundq 6 rpt.accuracy
  let clsTriple : ℚ × ℚ × ℚ := match target with
    | none => ((0 : ℚ), (0 : ℚ), (0 : ℚ))
    | some tc =>
      match rpt.perClass.find? (fun e => decide (e.1 = tc)) with
      | some e => (roundq 6 e.2.2.2.1, roundq 6 e.2.1, roundq 6 e.2.2.1)
      | none => ((0 : ℚ), (0 : ℚ), (0 : ℚ))
  { ACCURACY := acc6
    F1_MACRO := roundq 6 rpt.macroF
    F1_MICRO := acc6
    F1_WEIGHTED := roundq 6 rpt.weightedF
    PRECISION_MACRO := roundq 6 rpt.macroP
    PRECISION_MICRO := acc6
    PRECISION_WEIGHTED := roundq 6 rpt.weightedP
    RECALL_MACRO := roundq 6 rpt.macroR
    RECALL_MICRO := acc6
    RECALL_WEIGHTED := roundq 6 rpt.weightedR
    total_samples := totalSamples
    missing_predictions := missingCount
    per_class_report := rpt
    F1 := roundq 6 rpt.macroF
    PRECISION := roundq 6 rpt.macroP
    RECALL := roundq 6 rpt.macroR
    CLASS_F1 := clsTriple.1
    CLASS_PRECISION := clsTriple.2.1
    CLASS_RECALL := clsTriple.2.2 }

/-- `metrics.get(metric_type)` restricted to the numeric keys (the
`per_class_report` entry is a nested dict and is never a usable score). -/
def metricLookup (m : ClsMetrics) (key : String) : Option ℚ :=
  if key = ("ACCURACY") then some m.ACCURACY
  else if key = ("F1_MACRO") then some m.F1_MACRO
  else if key = ("F1_MICRO") then some m.F1_MICRO
  else if key = ("F1_WEIGHTED") then some m.F1_WEIGHTED
  else if key = ("PRECISION_MACRO") then some m.PRECISION_MACRO
  else if key = ("PRECISION_MICRO") then some m.PRECISION_MICRO
  else if key = ("PRECISION_WEIGHTED") then some m.PRECISION_WEIGHTED
  else if key = ("RECALL_MACRO") then some m.RECALL_MACRO
  else if key = ("RECALL_MICRO") then some m.RECALL_MICRO
  else if key = ("RECALL_WEIGHTED") then some m.RECALL_WEIGHTED
  else if key = ("total_samples") then some ((m.total_samples : Nat) : ℚ)
  else if key = ("missing_predictions") then some ((m.missing_predictions : Nat) : ℚ)
  else if key = ("F1") then some m.F1
  else if key = ("PRECISION") then some m.PRECISION
  else if key = ("RECALL") then some m.RECALL
  else if key = ("CLASS_F1") then some m.CLASS_F1
  else if key = ("CLASS_PRECISION") then some m.CLASS_PRECISION
  else if key = ("CLASS_RECALL") then some m.CLASS_RECALL
  else none

/-- One ground-truth row's contribution to the left join: one
`(label_true, some label_pred)` row per matching prediction row, or a
single `(label_true, none)` row (the NaN that `fillna` later replaces). -/
def clsMergeRow (idc lbc : String) (p gt : RawTable) (gr : List String) :
    List (String × Option String) :=
  let key := gr.getD (gt.header.indexOf idc) ("")
  let tl := gr.getD (gt.header.indexOf lbc) ("")
  let ms := p.rows.filter (fun pr => pr.getD (p.header.indexOf idc) ("") = key)
  if ms.isEmpty then [(tl, none)]
  else ms.map (fun pr => (tl, some (pr.getD (p.header.indexOf lbc) (""))))

/-- `pd.merge(ground_truth_df, prediction_df, on=id_column, how="left")`,
projected to the two columns the scorer reads. -/
def clsMergedRows (idc lbc : String) (p gt : RawTable) : List (String × Option String) :=
  gt.rows.flatMap (clsMergeRow idc lbc p gt)

/-- Tail of `calculate_score` from the `_generate_report` call on, staged on
the report outcome so proofs can rewrite by cases. -/
def clsCalcReport (metricType : String) (target : Option String)
    (merged : List (String × Option String)) (missing : Nat) (wlog : List String)
    (rptOpt : Option ClsReport) :
    Except (String × List String) (CoreResult ClsMetrics × List String × LogsSpec) :=
  match rptOpt with
  | none =>
    Except.ok
      ({ success := false, errorMessage := some ("Failed to generate report") },
        wlog ++ ["[ERROR] Failed to generate classification report: no samples"],
        LogsSpec.noLogs)
  | some rpt =>
    let m := extract_metrics rpt merged.length missing target
    let tlog : List String := match target with
      | some tc => ["[INFO] Target Class \x27" ++ tc ++ "\x27 F1: " ++ fmt4 m.CLASS_F1]
      | none => []
    let emitted := wlog ++ ["[INFO] Accuracy: " ++ fmt4 m.ACCURACY,
      "[INFO] F1 (macro): " ++ fmt4 m.F1_MACRO,
      "[INFO] F1 (weighted): " ++ fmt4 m.F1_WEIGHTED] ++ tlog
    let primary := (metricLookup m metricType).getD m.ACCURACY
    Except.ok
      ({ success := true, score := some (roundq 6 primary), metrics := some m },
        emitted, LogsSpec.aliasPlus [])

/-- `calculate_score` on resolved auto-detected columns and ground truth. -/
def clsCalcMain (metricType : String) (target : Option String)
    (ab : String × String) (p gt : RawTable) :
    Except (String × List String) (CoreResult ClsMetrics × List String × LogsSpec) :=
  if ab.1 ∈ gt.header ∧ ab.2 ∈ gt.header ∧ ab.1 ∈ p.header ∧ ab.2 ∈ p.header then
    let merged := clsMergedRows ab.1 ab.2 p gt
    let missing := (merged.filter (fun x => x.2 = none)).length
    let wlog : List String :=
      if 0 < missing then
        ["[WARNING] Warning: " ++ (⟨strOfNat missing⟩ : String)
          ++ " items have no prediction"]
      else []
    let yTrue := merged.map (fun x => x.1)
    let yPred := merged.map (fun x => (x.2).getD ("__MISSING__"))
    clsCalcReport metricType target merged missing wlog (genReport yTrue yPred)
  else Except.error ("KeyError: merge column missing", [])

/-- `calculate_score` staged on the detected columns and the cached ground
truth. -/
def clsCalcWith (metricType : String) (target : Option String)
    (cols : Option (String × String)) (p : RawTable) (gtOpt : Option RawTable) :
    Except (String × List String) (CoreResult ClsMetrics × List String × LogsSpec) :=
  match cols, gtOpt with
  | none, _ => Except.error ("KeyError: \x27None_true\x27", [])
  | some _, none => Except.error ("TypeError: ground truth is None", [])
  | some ab, some gt => clsCalcMain metricType target ab p gt

/-- Classification `calculate_score(prediction_df, ground_truth_df)`.
Exception paths (`pd.merge` / column access on a broken instance) are
`Except.error` with modelled messages; the normal path fills missing
predictions with the `"__MISSING__"` sentinel, builds the report and
metrics, logs the summary and selects the primary score.  The returned
`ScoringResult` aliases the log buffer (`logs=self.logs`), hence
`LogsSpec.aliasPlus []`. -/
def clsCalc (metricType : String) (target : Option String)
    (gtSrc : Except String RawTable) (p : RawTable) (gtOpt : Option RawTable) :
    Except (String × List String) (CoreResult ClsMetrics × List String × LogsSpec) :=
  clsCalcWith metricType target (clsCols gtSrc) p gtOpt

/-- The classification engine bound to fixed sources, as an `EngineModel`:
the auto-detected columns used by `validate` and `calculate_score` are the
deterministic function of the ground-truth source that the cached instance
attributes equal after `load_ground_truth` ran. -/
def clsEngine (metricType : String) (target : Option String)
    (gtSrc predSrc : Except String RawTable) : EngineModel RawTable ClsMetrics :=
  { loadGT := clsLoadGT gtSrc
    loadPred := loadPredOutcome predSrc
    validate := clsValidate gtSrc
    calculate_score := fun p gtOpt => clsCalc metricType target gtSrc p gtOpt }

/-! ### Claims C1, C4, C5, C6 -/

/-- Logs of a `score()` outcome (`none` when an exception escaped). -/
def scoreLogsOf {μ : Type} (r : Except (String × List String) (ScoringResult μ)) :
    Option (List String) :=
  match r with
  | .ok res => res.logs
  | .error _ => none

/-- The non-log fields of a `score()` outcome (`none` when an exception
escaped). -/
def scoreCoreOf {μ : Type} (r : Except (String × List String) (ScoringResult μ)) :
    Option (Bool × Option ℚ × Option μ × Option String) :=
  match r with
  | .ok res => some (res.success, res.score, res.metrics, res.errorMessage)
  | .error _ => none

/-- The escaped exception of a `score()` outcome, when one was raised. -/
def raisedOf {μ : Type} (r : Except (String × List String) (ScoringResult μ)) :
    Option (String × List String) :=
  match r with
  | .error e => some e
  | .ok _ => none

/-- A readable two-column ground truth and a matching prediction. -/
def clsGtOk : Except String RawTable := Except.ok ⟨["id", "label"], [["a", "x"]]⟩

def clsPredOk : Except String RawTable := Except.ok ⟨["id", "label"], [["a", "x"]]⟩

/-- A readable ground truth with a single column: auto-detection fails but
the base loader has already cached the dataframe. -/
def clsGtOneCol : Except String RawTable := Except.ok ⟨["x"], [["1"]]⟩

set_option maxRecDepth 1000000 in
/-- Claim C1 (code-bug evidence): on a classification engine whose readable
ground truth has one column, the first `score()` call fails as a result, but
leaves `ground_truth_df` cached with `id_column = None`; the second `score()`
call then raises `KeyError` out of `validate_prediction_format` — an
exception escaping `score()`, contradicting the never-raise contract. -/
theorem claim_C1_score_raises :
    scoreCoreOf (runScore (clsEngine ("ACCURACY") none clsGtOneCol clsPredOk) ⟨none, []⟩).1
      = some (false, none, none, some ("Failed to load ground truth"))
    ∧ scoreLogsOf (runScore (clsEngine ("ACCURACY") none clsGtOneCol clsPredOk) ⟨none, []⟩).1
      = some ["[INFO] Loaded ground truth with 1 rows",
          "[ERROR] Ground truth must have at least 2 columns"]
    ∧ raisedOf (runScore (clsEngine ("ACCURACY") none clsGtOneCol clsPredOk)
        (runScore (clsEngine ("ACCURACY") none clsGtOneCol clsPredOk) ⟨none, []⟩).2).1
      = some ("KeyError: None", ["[INFO] Loaded prediction with 1 rows"]) := by
  refine ⟨by decide, by decide, by decide⟩

set_option maxRecDepth 1000000 in
/-- Claim C6 (code-bug evidence): on a successful classification run the
returned `logs` list is the engine buffer concatenated with itself — every
line appears twice, because the task result's `logs` aliases `self.logs` and
`score()` then prepends `self.logs` again.  The claim says no line is ever
duplicated; the buffer itself (second conjunct) is duplicate-free. -/
theorem claim_C6_log_duplication :
    scoreLogsOf (runScore (clsEngine ("ACCURACY") none clsGtOk clsPredOk) ⟨none, []⟩).1
      = some (["[INFO] Loaded ground truth with 1 rows",
          "[INFO] Auto-detected columns: ID=\x27id\x27, Label=\x27label\x27",
          "[INFO] Loaded prediction with 1 rows",
          "[INFO] Accuracy: 1.0000",
          "[INFO] F1 (macro): 1.0000",
          "[INFO] F1 (weighted): 1.0000"]
        ++ ["[INFO] Loaded ground truth with 1 rows",
          "[INFO] Auto-detected columns: ID=\x27id\x27, Label=\x27label\x27",
          "[INFO] Loaded prediction with 1 rows",
          "[INFO] Accuracy: 1.0000",
          "[INFO] F1 (macro): 1.0000",
          "[INFO] F1 (weighted): 1.0000"])
    ∧ (["[INFO] Loaded ground truth with 1 rows",
        "[INFO] Auto-detected columns: ID=\x27id\x27, Label=\x27label\x27",
        "[INFO] Loaded prediction with 1 rows",
        "[INFO] Accuracy: 1.0000",
        "[INFO] F1 (macro): 1.0000",
        "[INFO] F1 (weighted): 1.0000"] : List String).Nodup := by
  refine ⟨by decide, by decide⟩

set_option maxRecDepth 1000000 in
/-- Claim C4 counterexample: two successive `score()` calls on a fresh
classification engine return results that agree on success, score, metrics
and error message but have different `logs` — the second call's logs lack
the ground-truth loading lines, so the two `ScoringResult`s are not
identical as the claim states. -/
theorem claim_C4_counterexample :
    scoreCoreOf (runScore (clsEngine ("ACCURACY") none clsGtOk clsPredOk) ⟨none, []⟩).1
      = scoreCoreOf (runScore (clsEngine ("ACCURACY") none clsGtOk clsPredOk)
          (runScore (clsEngine ("ACCURACY") none clsGtOk clsPredOk) ⟨none, []⟩).2).1
    ∧ scoreLogsOf (runScore (clsEngine ("ACCURACY") none clsGtOk clsPredOk) ⟨none, []⟩).1
      ≠ scoreLogsOf (runScore (clsEngine ("ACCURACY") none clsGtOk clsPredOk)
          (runScore (clsEngine ("ACCURACY") none clsGtOk clsPredOk) ⟨none, []⟩).2).1 := by
  refine ⟨by decide, by decide⟩

/-- Agreement of two `score()` outcomes on everything except logs: the same
escaped exception message, or results equal in success, score, metrics and
error message. -/
def coreAgrees {μ : Type} (a b : Except (String × List String) (ScoringResult μ)) : Prop :=
  match a, b with
  | .error e1, .error e2 => e1.1 = e2.1
  | .ok r1, .ok r2 =>
    r1.success = r2.success ∧ r1.score = r2.score ∧ r1.metrics = r2.metrics
      ∧ r1.errorMessage = r2.errorMessage
  | _, _ => False

theorem coreAgrees_rfl {μ : Type} (a : Except (String × List String) (ScoringResult μ)) :
    coreAgrees a a := by
  cases a with
  | error e => exact rfl
  | ok r => exact ⟨rfl, rfl, rfl, rfl⟩

theorem runScoreRest_gt {τ μ : Type} (E : EngineModel τ μ) (g : Option τ)
    (l : List String) : (runScoreRest E g l).2.gt = g := by
  rw [runScoreRest]
  rcases hp : E.loadPred with ⟨po, lp⟩
  cases po with
  | none => simp [predStep]
  | some predT =>
    simp only [predStep]
    rcases hv : E.validate predT with e | vr
    · simp [validateStep, hv]
    · simp only [validateStep, hv]
      by_cases hvr : vr.1 = false
      · simp [hvr]
      · rw [if_neg hvr]
        rcases hc : E.calculate_score predT g with er | cr
        · simp [calcStep, hc]
        · simp [calcStep, hc]

theorem runScoreRest_agrees {τ μ : Type} (E : EngineModel τ μ) (g : Option τ)
    (l1 l2 : List String) :
    coreAgrees (runScoreRest E g l1).1 (runScoreRest E g l2).1 := by
  rw [runScoreRest, runScoreRest]
  rcases hp : E.loadPred with ⟨po, lp⟩
  cases po with
  | none => exact ⟨rfl, rfl, rfl, rfl⟩
  | some predT =>
    simp only [predStep]
    rcases hv : E.validate predT with e | vr
    · simp only [validateStep, hv]
      exact rfl
    · simp only [validateStep, hv]
      by_cases hvr : vr.1 = false
      · rw [if_pos hvr, if_pos hvr]
        exact ⟨rfl, rfl, rfl, rfl⟩
      · rw [if_neg hvr, if_neg hvr]
        rcases hc : E.calculate_score predT g with er | cr
        · simp only [calcStep, hc]
          exact ⟨rfl, rfl, rfl, rfl⟩
        · simp only [calcStep, hc]
          exact ⟨rfl, rfl, rfl, rfl⟩

theorem runScore_of_gt_none {τ μ : Type} (E : EngineModel τ μ) (st : EngState τ)
    (h : st.gt = none) :
    runScore E st
      = (if E.loadGT.1 = false then
          (Except.ok
            { success := false
              errorMessage := some ("Failed to load ground truth")
              logs := some E.loadGT.2.2 },
            { gt := E.loadGT.2.1, logs := E.loadGT.2.2 })
        else runScoreRest E E.loadGT.2.1 E.loadGT.2.2) := by
  obtain ⟨g, l⟩ := st
  have hg : g = none := h
  subst hg
  rfl

theorem runScore_of_gt_some {τ μ : Type} (E : EngineModel τ μ) (st : EngState τ)
    (d : τ) (h : st.gt = some d) :
    runScore E st = runScoreRest E (some d) [] := by
  obtain ⟨g, l⟩ := st
  have hg : g = some d := h
  subst hg
  rfl

/-- Claim C4 (amended): on a fresh engine whose ground-truth loader does not
cache a table when it reports failure, two successive `score()` calls with
the same inputs agree on success, score, metrics and error message (and on
the escaped exception message, if any); only the `logs` can differ — the
second call omits the ground-truth loading lines. -/
theorem claim_C4_amended {τ μ : Type} (E : EngineModel τ μ) (st0 : EngState τ)
    (hfresh : st0.gt = none)
    (hcache : E.loadGT.1 = false → E.loadGT.2.1 = none) :
    coreAgrees (runScore E st0).1 (runScore E (runScore E st0).2).1 := by
  rw [runScore_of_gt_none E st0 hfresh]
  by_cases hok : E.loadGT.1 = false
  · rw [if_pos hok]
    have hdf := hcache hok
    rw [runScore_of_gt_none E _ hdf, if_pos hok]
    exact coreAgrees_rfl _
  · rw [if_neg hok]
    rcases hdf : E.loadGT.2.1 with _ | d
    · rw [runScore_of_gt_none E _ (by rw [runScoreRest_gt]), if_neg hok, hdf]
      exact coreAgrees_rfl _
    · rw [runScore_of_gt_some E _ d (by rw [runScoreRest_gt])]
      exact runScoreRest_agrees E (some d) E.loadGT.2.2 []

set_option maxRecDepth 1000000 in
/-- Witness for the amended claim C4 at the concrete classification engine. -/
theorem claim_C4_amended_witness :
    coreAgrees (runScore (clsEngine ("ACCURACY") none clsGtOk clsPredOk) ⟨none, []⟩).1
      (runScore (clsEngine ("ACCURACY") none clsGtOk clsPredOk)
        (runScore (clsEngine ("ACCURACY") none clsGtOk clsPredOk) ⟨none, []⟩).2).1 :=
  claim_C4_amended (clsEngine ("ACCURACY") none clsGtOk clsPredOk) ⟨none, []⟩ rfl
    (by decide)

/-! ### Claim C5 -/

/-- Ground-truth rows with no matching prediction row (join on `idc`). -/
def unmatchedGtRows (idc : String) (p gt : RawTable) : List (List String) :=
  gt.rows.filter (fun gr =>
    (p.rows.filter (fun pr =>
      pr.getD (p.header.indexOf idc) ("")
        = gr.getD (gt.header.indexOf idc) (""))).isEmpty)

theorem clsMergeRow_ne_nil (idc lbc : String) (p gt : RawTable) (gr : List String) :
    clsMergeRow idc lbc p gt gr ≠ [] := by
  simp only [clsMergeRow]
  by_cases hms : (p.rows.filter (fun pr =>
      pr.getD (p.header.indexOf idc) ("")
        = gr.getD (gt.header.indexOf idc) (""))).isEmpty = true
  · rw [if_pos hms]
    simp
  · rw [if_neg hms]
    simp only [ne_eq, List.map_eq_nil_iff]
    intro hc
    rw [hc] at hms
    exact hms rfl

theorem clsMergedRows_ne_nil (idc lbc : String) (p gt : RawTable)
    (h : gt.rows ≠ []) : clsMergedRows idc lbc p gt ≠ [] := by
  simp only [clsMergedRows]
  rcases hr : gt.rows with _ | ⟨gr, rest⟩
  · exact absurd hr h
  · rw [List.flatMap_cons]
    intro hc
    rcases List.append_eq_nil.mp hc with ⟨h1, _⟩
    exact clsMergeRow_ne_nil idc lbc p gt gr h1

theorem clsMergeRow_none_count (idc lbc : String) (p gt : RawTable) (gr : List String) :
    ((clsMergeRow idc lbc p gt gr).filter (fun x => decide (x.2 = none))).length
      = (if (p.rows.filter (fun pr =>
          pr.getD (p.header.indexOf idc) ("")
            = gr.getD (gt.header.indexOf idc) (""))).isEmpty then 1 else 0) := by
  simp only [clsMergeRow]
  by_cases hms : (p.rows.filter (fun pr =>
      pr.getD (p.header.indexOf idc) ("")
        = gr.getD (gt.header.indexOf idc) (""))).isEmpty = true
  · rw [if_pos hms, if_pos hms]
    rfl
  · rw [if_neg hms, if_neg hms]
    induction (p.rows.filter (fun pr =>
        pr.getD (p.header.indexOf idc) ("")
          = gr.getD (gt.header.indexOf idc) (""))) with
    | nil => rfl
    | cons a t ih =>
      simp only [List.map_cons, List.filter_cons]
      simp [ih]

theorem clsMergedRows_missing_count (idc lbc : String) (p gt : RawTable) :
    ((clsMergedRows idc lbc p gt).filter (fun x => decide (x.2 = none))).length
      = (unmatchedGtRows idc p gt).length := by
  simp only [clsMergedRows, unmatchedGtRows]
  induction gt.rows with
  | nil => rfl
  | cons gr rest ih =>
    rw [List.flatMap_cons, List.filter_append, List.length_append,
      clsMergeRow_none_count idc lbc p gt gr, List.filter_cons]
    by_cases hms : (p.rows.filter (fun pr =>
        pr.getD (p.header.indexOf idc) ("")
          = gr.getD (gt.header.indexOf idc) (""))).isEmpty = true
    · rw [if_pos hms, if_pos hms, List.length_cons, ih]
      omega
    · rw [if_neg hms, if_neg hms, ih]
      omega

theorem clsMergeRow_fst (idc lbc : String) (p gt : RawTable) (gr : List String) :
    ∀ x ∈ clsMergeRow idc lbc p gt gr,
      x.1 = gr.getD (gt.header.indexOf lbc) ("") := by
  intro x hx
  simp only [clsMergeRow] at hx
  by_cases hms : (p.rows.filter (fun pr =>
      pr.getD (p.header.indexOf idc) ("")
        = gr.getD (gt.header.indexOf idc) (""))).isEmpty = true
  · rw [if_pos hms] at hx
    simp at hx
    rw [hx, List.getD_eq_getElem?_getD]
  · rw [if_neg hms] at hx
    rcases List.mem_map.mp hx with ⟨pr, _, hpr⟩
    rw [← hpr]

theorem clsMergedRows_fst_ne (idc lbc : String) (p gt : RawTable)
    (hsent : ("__MISSING__") ∉ colVals gt lbc) :
    ∀ x ∈ clsMergedRows idc lbc p gt, ¬ x.1 = ("__MISSING__") := by
  intro x hx h1
  rcases List.mem_flatMap.mp hx with ⟨gr, hgr, hxr⟩
  apply hsent
  rw [← h1, clsMergeRow_fst idc lbc p gt gr x hxr]
  exact List.mem_map.mpr ⟨gr, hgr, rfl⟩

theorem zip_filter_correct_count (s : String) (l : List (String × Option String))
    (h : ∀ x ∈ l, ¬ x.1 = s) :
    (((l.map (fun x => x.1)).zip (l.map (fun x => (x.2).getD s))).filter
        (fun x => decide (x.1 = x.2))).length
      = (l.filter (fun x => decide (x.2 = some x.1))).length := by
  induction l with
  | nil => rfl
  | cons a t ih =>
    have ha : ¬ a.1 = s := h a (by simp)
    have ht : ∀ x ∈ t, ¬ x.1 = s := fun x hx => h x (by simp [hx])
    simp only [List.map_cons, List.zip_cons_cons, List.filter_cons]
    rcases h2 : a.2 with _ | v
    · simp [h2, ha, ih ht]
    · by_cases hv : a.1 = v
      · simp [h2, hv, ih ht]
      · have hv2 : ¬ v = a.1 := fun hc => hv hc.symm
        simp [h2, hv, hv2, ih ht]

theorem genReport_accuracy (yTrue yPred : List String) (h : ¬ yTrue.length = 0) :
    ∃ rpt, genReport yTrue yPred = some rpt
      ∧ rpt.accuracy = qdiv
          ((((yTrue.zip yPred).filter (fun x => decide (x.1 = x.2))).length : Nat) : ℚ)
          ((yTrue.length : Nat) : ℚ) := by
  simp only [genReport]
  rw [if_neg h]
  exact ⟨_, rfl, rfl⟩

/-- Claim C5 (amended): in classification scoring, provided the sentinel
`"__MISSING__"` does not itself occur as a ground-truth label, each
ground-truth row with no matching prediction row is filled with the sentinel
and scored as incorrect (the accuracy counts exactly the matched rows whose
prediction equals the truth), `missing_predictions` equals the number of
such rows, and when it is positive a WARNING log with the count is emitted.
(The unamended claim's "guaranteed not to equal any real label" is refuted
by `claim_C5_counterexample`.) -/
theorem claim_C5_amended (metricType : String) (target : Option String)
    (gtSrc : Except String RawTable) (p gt : RawTable) (idc lbc : String)
    (hcols : clsCols gtSrc = some (idc, lbc))
    (hmem : idc ∈ gt.header ∧ lbc ∈ gt.header ∧ idc ∈ p.header ∧ lbc ∈ p.header)
    (hne : gt.rows ≠ [])
    (hsent : ("__MISSING__") ∉ colVals gt lbc) :
    ∃ (core : CoreResult ClsMetrics) (emitted : List String) (sp : LogsSpec)
      (m : ClsMetrics),
      clsCalc metricType target gtSrc p (some gt) = Except.ok (core, emitted, sp)
      ∧ core.metrics = some m
      ∧ m.missing_predictions = (unmatchedGtRows idc p gt).length
      ∧ (0 < (unmatchedGtRows idc p gt).length →
          ("[WARNING] Warning: "
              ++ (⟨strOfNat (unmatchedGtRows idc p gt).length⟩ : String)
              ++ " items have no prediction") ∈ emitted)
      ∧ m.ACCURACY = roundq 6 (qdiv
          ((((clsMergedRows idc lbc p gt).filter
              (fun x => decide (x.2 = some x.1))).length : Nat) : ℚ)
          (((clsMergedRows idc lbc p gt).length : Nat) : ℚ)) := by
  have hlen : ¬ ((clsMergedRows idc lbc p gt).map (fun x => x.1)).length = 0 := by
    rw [List.length_map, List.length_eq_zero]
    exact clsMergedRows_ne_nil idc lbc p gt hne
  obtain ⟨rpt, hr, hacc⟩ := genReport_accuracy
    ((clsMergedRows idc lbc p gt).map (fun x => x.1))
    ((clsMergedRows idc lbc p gt).map (fun x => (x.2).getD ("__MISSING__"))) hlen
  have hmiss := clsMergedRows_missing_count idc lbc p gt
  simp only [clsCalc]
  rw [hcols]
  simp only [clsCalcWith, clsCalcMain]
  rw [if_pos hmem, hr]
  simp only [clsCalcReport]
  refine ⟨_, _, _, _, rfl, rfl, ?_, ?_, ?_⟩
  · exact hmiss
  · intro h0
    rw [← hmiss] at h0
    rw [← hmiss]
    rw [if_pos h0]
    exact List.mem_append_left _ (List.mem_append_left _ (by simp))
  · show roundq 6 rpt.accuracy = _
    rw [hacc, zip_filter_correct_count ("__MISSING__") (clsMergedRows idc lbc p gt)
      (clsMergedRows_fst_ne idc lbc p gt hsent), List.length_map]

def gtW : RawTable := ⟨["id", "label"], [["a", "x"], ["b", "y"], ["c", "z"], ["d", "x"]]⟩

def predW : RawTable := ⟨["id", "label"], [["d", "x"]]⟩

set_option maxRecDepth 1000000 in
/-- Witness for the amended claim C5: three of four ground-truth rows have
no matching prediction. -/
theorem claim_C5_amended_witness :
    ∃ (core : CoreResult ClsMetrics) (emitted : List String) (sp : LogsSpec)
      (m : ClsMetrics),
      clsCalc ("ACCURACY") none (Except.ok gtW) predW (some gtW)
        = Except.ok (core, emitted, sp)
      ∧ core.metrics = some m
      ∧ m.missing_predictions = (unmatchedGtRows ("id") predW gtW).length
      ∧ (0 < (unmatchedGtRows ("id") predW gtW).length →
          ("[WARNING] Warning: "
              ++ (⟨strOfNat (unmatchedGtRows ("id") predW gtW).length⟩ : String)
              ++ " items have no prediction") ∈ emitted)
      ∧ m.ACCURACY = roundq 6 (qdiv
          ((((clsMergedRows ("id") ("label") predW gtW).filter
              (fun x => decide (x.2 = some x.1))).length : Nat) : ℚ)
          (((clsMergedRows ("id") ("label") predW gtW).length : Nat) : ℚ)) :=
  claim_C5_amended ("ACCURACY") none (Except.ok gtW) predW gtW ("id") ("label")
    (by decide) (by decide) (by decide) (by decide)

/-- The metrics dictionary of a `calculate_score` outcome. -/
def calcMetricsOf {μ : Type}
    (r : Except (String × List String) (CoreResult μ × List String × LogsSpec)) :
    Option μ :=
  match r with
  | .ok x => x.1.metrics
  | .error _ => none

set_option maxRecDepth 1000000 in
/-- Claim C5 counterexample: the sentinel is NOT guaranteed to differ from
every real label — a ground-truth label that is literally `"__MISSING__"`
makes the one unmatched row count as CORRECT (accuracy 1 with 1 missing
prediction out of 1 row), refuting "scored as incorrect". -/
theorem claim_C5_counterexample :
    (calcMetricsOf (clsCalc ("ACCURACY") none
        (Except.ok ⟨["id", "label"], [["a", "__MISSING__"]]⟩)
        ⟨["id", "label"], ([] : List (List String))⟩
        (some ⟨["id", "label"], [["a", "__MISSING__"]]⟩))).map
      (fun m => (m.missing_predictions, m.ACCURACY))
      = some (1, 1) := by decide

/-! ### Claim C9: the custom engine's function-shaped extension -/

/-- What the custom script's `calculate_score` function returned: a
`ScoringResult` (passed through), a bare number, a mapping (absent keys are
`none`), or a value of any other type (its type name kept for the
`ValueError` message).  Metrics payloads are plain string-to-number maps. -/
inductive CustomReturn where
  | scoringResult (r : ScoringResult (List (String × ℚ)))
  | num (q : ℚ)
  | dict (success : Option Bool) (score : Option ℚ)
      (metrics : Option (List (String × ℚ))) (errorMessage : Option String)
      (logs : Option (List String))
  | other (tyName : String)
deriving DecidableEq

/-- Deterministic behaviour of the script function on the given inputs:
the log lines it emits through `logger=self`, then a return or a raise. -/
inductive ScriptBehavior where
  | returns (emit : List String) (v : CustomReturn)
  | raises (emit : List String) (msg : String)
deriving DecidableEq

/-- Outcome of `_load_script()`'s side conditions: missing file, an
exception while importing the module, neither entry point defined, or the
`calculate_score` function found with the given behaviour (the
`CustomScorer`-class shape delegates wholesale and is outside this claim;
the unreachable `spec is None` branch is omitted). -/
inductive LoadOutcome where
  | missingFile
  | loadRaises (msg : String)
  | noEntryPoint
  | funcFound (behavior : ScriptBehavior)
deriving DecidableEq

/-- `_load_script()` on a fresh instance: returned flag and emitted logs. -/
def customLoadScript (lo : LoadOutcome) (scriptPath : String) : Bool × List String :=
  match lo with
  | .missingFile => (false, ["[ERROR] Scoring script not found: " ++ scriptPath])
  | .loadRaises msg => (false, ["[ERROR] Failed to load scoring script: " ++ msg])
  | .noEntryPoint =>
    (false,
      ["[ERROR] Script must define \x27CustomScorer\x27 class or \x27calculate_score\x27 function"])
  | .funcFound _ =>
    (true, ["[INFO] Found calculate_score function in " ++ scriptPath])

/-- `CustomScoringEngine.calculate_score` (function-shaped script): returns
the `ScoringResult` together with the final engine log buffer.  The
`try/except` around the call and the `ValueError` raised for unsupported
return types are modelled by total case analysis; `logs0` is `self.logs` at
entry. -/
def customCalc (lo : LoadOutcome) (scriptPath : String) (logs0 : List String) :
    ScoringResult (List (String × ℚ)) × List String :=
  let load := customLoadScript lo scriptPath
  let logs1 := logs0 ++ load.2
  if load.1 = false then
    ({ success := false, errorMessage := some ("Failed to load scoring script") },
      logs1)
  else
    match lo with
    | .funcFound (.returns emit v) =>
      let logs2 := logs1 ++ emit
      match v with
      | .scoringResult r => (r, logs2)
      | .num q => ({ success := true, score := some q, logs := some logs2 }, logs2)
      | .dict s sc m e lg =>
        ({ success := s.getD true, score := sc, metrics := m, errorMessage := e,
            logs := some (logs2 ++ lg.getD []) }, logs2)
      | .other tyName =>
        let msg := "Unsupported return type from custom script: " ++ tyName
        let logs3 := logs2 ++ ["[ERROR] Custom scoring execution failed: " ++ msg]
        ({ success := false, errorMessage := some msg, logs := some logs3 }, logs3)
    | .funcFound (.raises emit msg) =>
      let logs3 := logs1 ++ emit
        ++ ["[ERROR] Custom scoring execution failed: " ++ msg]
      ({ success := false, errorMessage := some msg, logs := some logs3 }, logs3)
    | .missingFile =>
      ({ success := false, errorMessage := some ("Failed to load scoring script") },
        logs1)
    | .loadRaises _ =>
      ({ success := false, errorMessage := some ("Failed to load scoring script") },
        logs1)
    | .noEntryPoint =>
      ({ success := false, errorMessage := some ("Failed to load scoring script") },
        logs1)

/-- Substring test (`sub in s` on Python strings). -/
def strHasSub (s sub : String) : Bool :=
  (List.range (s.data.length + 1)).any
    (fun i => ((s.data.drop i).take sub.data.length) == sub.data)

/-- Claim C9 (amended): the adapter cases of the custom engine's
`calculate_score` with a function-shaped script.  A bare number `r` yields
`success = true, score = r`; a mapping yields `success` defaulting to
`true`, `score`/`metrics`/`error_message` taken from the mapping, and
`logs` equal to the engine's own buffer with the mapping's logs appended
after it; an unsupported return type and an exception raised by the
function both yield a failure whose `error_message` captures the message.
But for a load-time exception the failure's `error_message` is the fixed
string `"Failed to load scoring script"`: the exception's own message goes
only into the engine log buffer (see `claim_C9_counterexample`).  No case
propagates an exception. -/
theorem claim_C9_amended (scriptPath : String) (logs0 : List String) :
    (∀ emit q,
      (customCalc (.funcFound (.returns emit (.num q))) scriptPath logs0).1
        = { success := true, score := some q,
            logs := some ((logs0
              ++ ["[INFO] Found calculate_score function in " ++ scriptPath])
              ++ emit) })
    ∧ (∀ emit s sc m e lg,
      (customCalc (.funcFound (.returns emit (.dict s sc m e lg))) scriptPath logs0).1
        = { success := s.getD true, score := sc, metrics := m, errorMessage := e,
            logs := some (((logs0
              ++ ["[INFO] Found calculate_score function in " ++ scriptPath])
              ++ emit) ++ lg.getD []) })
    ∧ (∀ emit tyName,
      ((customCalc (.funcFound (.returns emit (.other tyName))) scriptPath logs0).1.success
          = false
        ∧ (customCalc (.funcFound (.returns emit (.other tyName))) scriptPath
            logs0).1.errorMessage
          = some ("Unsupported return type from custom script: " ++ tyName)))
    ∧ (∀ emit msg,
      ((customCalc (.funcFound (.raises emit msg)) scriptPath logs0).1.success = false
        ∧ (customCalc (.funcFound (.raises emit msg)) scriptPath logs0).1.errorMessage
          = some msg))
    ∧ (∀ msg,
      ((customCalc (.loadRaises msg) scriptPath logs0).1.success = false
        ∧ (customCalc (.loadRaises msg) scriptPath logs0).1.errorMessage
          = some ("Failed to load scoring script")
        ∧ (customCalc (.loadRaises msg) scriptPath logs0).2
          = logs0 ++ ["[ERROR] Failed to load scoring script: " ++ msg]
        ∧ (customCalc (.loadRaises msg) scriptPath logs0).1.logs = none)) := by
  refine ⟨fun emit q => rfl, fun emit s sc m e lg => rfl,
    fun emit tyName => ⟨rfl, rfl⟩, fun emit msg => ⟨rfl, rfl⟩,
    fun msg => ⟨rfl, rfl, rfl, rfl⟩⟩

/-- Claim C9 counterexample: an exception during script load (message
`"boom"`) yields `error_message = "Failed to load scoring script"` — a fixed
string that does not contain the raised message, which lands only in the
engine's internal log buffer while the result's `logs` field is `none`.
This refutes "any exception raised during load or execution yields a
failure ScoringResult whose error_message captures the message". -/
theorem claim_C9_counterexample :
    (customCalc (LoadOutcome.loadRaises ("boom")) ("script.py") []).1.errorMessage
      = some ("Failed to load scoring script")
    ∧ strHasSub ("Failed to load scoring script") ("boom") = false
    ∧ (customCalc (LoadOutcome.loadRaises ("boom")) ("script.py") []).1.logs = none
    ∧ (customCalc (LoadOutcome.loadRaises ("boom")) ("script.py") []).2
      = ["[ERROR] Failed to load scoring script: boom"] := by
  refine ⟨rfl, by decide, rfl, rfl⟩
